import Mathlib

/-!
Verification of the hri-autism-backend repository.

This file shallowly embeds the Python source of the repository in Lean 4 and
proves properties of the embedded definitions.  Python strings are modelled as
`List Char` (`Str`); Python `str.strip`, `str.lower`, `str.replace(" ", "_")`,
`str.split(",")` and lexicographic string comparison are modelled character by
character over the ASCII subset the program actually manipulates.  Python
`datetime` objects are modelled by the `DT` structure; the program only ever
constructs naive datetimes or UTC-aware datetimes (`utc_now`,
`replace(tzinfo=timezone.utc)`), so the timezone is modelled as a Boolean
`utc` flag and `astimezone(timezone.utc)` is the identity on UTC-aware
values.  Google-Sheets worksheets are modelled as lists of rows, each row a
list of cell strings, whose first row is the header row.  Fallible Python
code (raised exceptions) is modelled with `Except Err`.
-/

/-- Python strings, modelled as lists of characters. -/
abbrev Str := List Char

/-- The whitespace characters recognised by Python `str.strip()` (the ASCII
subset: space, tab, newline, carriage return, vertical tab, form feed). -/
def isSpaceChar (c : Char) : Bool :=
  c = ' ' || c = '\t' || c = '\n' || c = '\x0d' || c = '\x0b' || c = '\x0c'

/-- Python `str.strip()`: drop whitespace from both ends. -/
def pyStrip (s : Str) : Str :=
  ((s.dropWhile isSpaceChar).reverse.dropWhile isSpaceChar).reverse

/-- ASCII lowercasing of one character, as Python `str.lower()` does on the
ASCII range the program manipulates. -/
def lowerChar (c : Char) : Char :=
  if 65 ≤ c.toNat ∧ c.toNat ≤ 90 then Char.ofNat (c.toNat + 32) else c

/-- Python `str.lower()` (ASCII range). -/
def pyLower (s : Str) : Str := s.map lowerChar

/-- One step of Python `str.replace(" ", "_")`. -/
def spaceToUnderscore (c : Char) : Char := if c = ' ' then '_' else c

/-- Python `str.replace(" ", "_")`. -/
def pyReplaceSpace (s : Str) : Str := s.map spaceToUnderscore

/-- Python `str.split(",")`: split on every comma, keeping empty fragments.
`splitComma [] = [[]]`, matching Python's `"".split(",") == [""]`. -/
def splitComma : Str → List Str
  | [] => [[]]
  | c :: rest =>
    if c = ',' then [] :: splitComma rest
    else
      match splitComma rest with
      | t :: ts => (c :: t) :: ts
      | [] => [[c]]

/-- Python `",".join(parts)`. -/
def joinComma : List Str → Str
  | [] => []
  | [t] => t
  | t :: rest => t ++ ',' :: joinComma rest

/-- Python string comparison `a < b`: lexicographic on code points. -/
def strLt : Str → Str → Bool
  | [], [] => false
  | [], _ :: _ => true
  | _ :: _, [] => false
  | a :: as, b :: bs =>
    if a.toNat < b.toNat then true
    else if b.toNat < a.toNat then false
    else strLt as bs

/-- Python `str(n)` for a natural number (decimal representation). -/
def natToStr (n : Nat) : Str := (Nat.repr n).data

/-- Python `str(n)` for an integer. -/
def intToStr (n : Int) : Str :=
  if n < 0 then '-' :: natToStr n.natAbs else natToStr n.natAbs

/-- Python `int(s)` on a string: optional surrounding whitespace, optional
sign, then at least one decimal digit; `none` models a raised `ValueError`. -/
def pyInt (s : Str) : Option Int :=
  let t := pyStrip s
  let digitsToNat (ds : Str) : Option Nat :=
    if ds = [] then none
    else if ds.all (fun c => 48 ≤ c.toNat ∧ c.toNat ≤ 57) then
      some (ds.foldl (fun acc c => acc * 10 + (c.toNat - 48)) 0)
    else none
  match t with
  | '-' :: ds => (digitsToNat ds).map (fun n => -(n : Int))
  | '+' :: ds => (digitsToNat ds).map (fun n => (n : Int))
  | ds => (digitsToNat ds).map (fun n => (n : Int))

/-!
## Datetimes (`src/common/time_utils.py` and Python `datetime.isoformat`)
-/

/-- A Python `datetime`, restricted to the timezones the program constructs:
`utc = false` models a naive datetime, `utc = true` a `timezone.utc`-aware
one (`utc_now()` and `replace(tzinfo=timezone.utc)` only ever produce these,
and `astimezone(timezone.utc)` is the identity on them). -/
structure DT where
  year : Nat
  month : Nat
  day : Nat
  hour : Nat
  minute : Nat
  second : Nat
  microsecond : Nat
  utc : Bool
deriving DecidableEq, Repr

/-- The field ranges Python's `datetime` constructor guarantees. -/
def validDT (d : DT) : Prop :=
  1 ≤ d.year ∧ d.year ≤ 9999 ∧ 1 ≤ d.month ∧ d.month ≤ 12 ∧
  1 ≤ d.day ∧ d.day ≤ 31 ∧ d.hour ≤ 23 ∧ d.minute ≤ 59 ∧
  d.second ≤ 59 ∧ d.microsecond ≤ 999999

instance (d : DT) : Decidable (validDT d) := by unfold validDT; infer_instance

/-- Last decimal digit as a character. -/
def digit (n : Nat) : Char := Nat.digitChar (n % 10)

/-- Two-digit zero-padded rendering (`%02d` for `n ≤ 99`). -/
def pad2 (n : Nat) : Str := [digit (n / 10), digit n]

/-- Four-digit zero-padded rendering (`%04d` for `n ≤ 9999`). -/
def pad4 (n : Nat) : Str := pad2 (n / 100) ++ pad2 n

/-- Six-digit zero-padded rendering (`%06d` for `n ≤ 999999`). -/
def pad6 (n : Nat) : Str := pad2 (n / 10000) ++ pad2 (n / 100) ++ pad2 n

/-- The `"+00:00"` UTC offset suffix Python appends for `timezone.utc`. -/
def utcOffsetSuffix : Str := ['+', '0', '0', ':', '0', '0']

/-- Python `datetime.isoformat()`: `YYYY-MM-DDTHH:MM:SS`, then
`.ffffff` when the microsecond field is nonzero, then the `+00:00` offset
when the value is UTC-aware. -/
def dtIsoformat (d : DT) : Str :=
  pad4 d.year ++ '-' :: pad2 d.month ++ '-' :: pad2 d.day ++
  'T' :: pad2 d.hour ++ ':' :: pad2 d.minute ++ ':' :: pad2 d.second ++
  (if d.microsecond ≠ 0 then '.' :: pad6 d.microsecond else []) ++
  (if d.utc then utcOffsetSuffix else [])

/-- Python `s.replace("+00:00", "Z")`: replace every occurrence of the
six-character pattern by `"Z"`, scanning left to right. -/
def replaceOffsetWithZ : Str → Str
  | '+' :: '0' :: '0' :: ':' :: '0' :: '0' :: rest => 'Z' :: replaceOffsetWithZ rest
  | c :: rest => c :: replaceOffsetWithZ rest
  | [] => []

/-- `to_isoformat` from `src/common/time_utils.py`: normalise to UTC (naive
values are tagged UTC, aware values are already UTC in this program), drop
microseconds unless kept, render with `isoformat()` and replace the
`"+00:00"` offset with `"Z"`. -/
def to_isoformat (dt : DT) (keep_microseconds : Bool) : Str :=
  let dt1 : DT := { dt with utc := true }
  let dt2 : DT := if keep_microseconds then dt1 else { dt1 with microsecond := 0 }
  replaceOffsetWithZ (dtIsoformat dt2)

/-- Second-precision chronological order on UTC datetimes: lexicographic on
(year, month, day, hour, minute, second), the order Python's `datetime`
comparison induces for equal timezones. -/
def dtLt (a b : DT) : Prop :=
  a.year < b.year ∨ (a.year = b.year ∧
    (a.month < b.month ∨ (a.month = b.month ∧
      (a.day < b.day ∨ (a.day = b.day ∧
        (a.hour < b.hour ∨ (a.hour = b.hour ∧
          (a.minute < b.minute ∨ (a.minute = b.minute ∧
            a.second < b.second)))))))))

instance (a b : DT) : Decidable (dtLt a b) := by unfold dtLt; infer_instance

/-!
## Errors (`src/common/errors.py`)

Each application error class is modelled as a constructor carrying its
message; the structured `details` payload is not modelled (no claim depends
on it).  `valueError` models a raised Python `ValueError` (an unhandled
built-in exception, not one of the application error classes).
-/

inductive Err where
  | validation (msg : Str)
  | notFound (msg : Str)
  | conflict (msg : Str)
  | unauthorized (msg : Str)
  | forbidden (msg : Str)
  | externalService (msg : Str)
  | internal (msg : Str)
  | valueError (msg : Str)
deriving DecidableEq, Repr

/-- The error carried by an `Except`, if any. -/
def errOf {α : Type} : Except Err α → Option Err
  | .error e => some e
  | .ok _ => none

instance exceptDecEq {α β : Type} [DecidableEq α] [DecidableEq β] :
    DecidableEq (Except α β)
  | .error a, .error b =>
    if h : a = b then .isTrue (by rw [h])
    else .isFalse (fun hh => by injection hh with h2; exact h h2)
  | .error _, .ok _ => .isFalse (fun hh => by injection hh)
  | .ok _, .error _ => .isFalse (fun hh => by injection hh)
  | .ok a, .ok b =>
    if h : a = b then .isTrue (by rw [h])
    else .isFalse (fun hh => by injection hh with h2; exact h h2)

/-!
## Record codec (`src/repositories/sheets_repo.py`, `_serialize_row` /
`_deserialize_row`)

A record (Python `Dict[str, Any]`) is modelled as a function from keys to
`Option Value`; `none` models an absent key, `some .vNone` a key stored with
Python `None`.
-/

inductive Value where
  | vNone
  | vStr (s : Str)
  | vInt (n : Int)
  | vDT (d : DT)
deriving DecidableEq, Repr

abbrev Record := Str → Option Value

def emptyRecord : Record := fun _ => none

/-- Python `dict[k] = v`. -/
def dictInsert (r : Record) (k : Str) (v : Value) : Record :=
  fun k' => if k' = k then some v else r k'

/-- Python `dict.update(u)`: keys present in `u` override `r`. -/
def dictUpdate (r u : Record) : Record :=
  fun k => match u k with
  | some v => some v
  | none => r k

/-- Build a record from a key-value list (later entries override earlier
ones, as in a Python dict literal). -/
def recordOf (kvs : List (Str × Value)) : Record :=
  kvs.foldl (fun r p => dictInsert r p.1 p.2) emptyRecord

/-- One cell of `_serialize_row`: `record.get(header, "")`, then
`value.isoformat()` for datetimes, `""` for `None`, `str(value)` otherwise. -/
def serializeCell (v : Value) : Str :=
  match v with
  | .vDT d => dtIsoformat d
  | .vNone => []
  | .vStr s => s
  | .vInt n => intToStr n

/-- `SheetsRepository._serialize_row`. -/
def serializeRow (headers : List Str) (record : Record) : List Str :=
  headers.map (fun h => serializeCell ((record h).getD (.vStr [])))

/-- `SheetsRepository._deserialize_row`: pad the value list with `""` up to
the header count, then zip into a dict (later duplicate headers override
earlier ones, as in the Python dict comprehension). -/
def deserializeRow (headers : List Str) (row_values : List Str) : Record :=
  let values := row_values ++ List.replicate (headers.length - row_values.length) []
  (headers.zip values).foldl (fun r p => dictInsert r p.1 (.vStr p.2)) emptyRecord

/-!
## Worksheets and the row locator
-/

/-- A worksheet: a list of rows (row 1 is the header row), each a list of
cell strings. -/
abbrev Ws := List (List Str)

/-- gspread `worksheet.col_values(j)` (1-based column index); absent cells
read as `""`. -/
def colValues (ws : Ws) (j : Nat) : List Str :=
  ws.map (fun row => row.getD (j - 1) [])

/-- gspread `worksheet.row_values(i)` (1-based row index). -/
def rowValues (ws : Ws) (i : Nat) : List Str :=
  ws.getD (i - 1) []

/-- The scan inside `_find_row_by_id` / `_find_row_by_column`:
`enumerate(column_values, start=i)`, returning the index of the first
match. -/
def findFrom (vals : List Str) (i : Nat) (target : Str) : Option Nat :=
  match vals with
  | [] => none
  | v :: rest => if v = target then some i else findFrom rest (i + 1) target

/-- `SheetsRepository._find_row_by_id`: scan the full first column
(header row included), 1-based. -/
def findRowById (ws : Ws) (identifier : Str) : Option Nat :=
  findFrom (colValues ws 1) 1 identifier

/-- `SheetsRepository._find_row_by_column`: the same scan over an arbitrary
1-based column. -/
def findRowByColumn (ws : Ws) (column_index : Nat) (value : Str) : Option Nat :=
  findFrom (colValues ws column_index) 1 value

/-!
## Table headers and key names (`src/repositories/sheets_repo.py`)
-/

def hChildId : Str := ("child_id").data
def hNickname : Str := ("nickname").data
def hAge : Str := ("age").data
def hCommLevel : Str := ("comm_level").data
def hPersonality : Str := ("personality").data
def hTriggersRaw : Str := ("triggers_raw").data
def hTriggers : Str := ("triggers").data
def hInterestsRaw : Str := ("interests_raw").data
def hInterests : Str := ("interests").data
def hTargetSkillsRaw : Str := ("target_skills_raw").data
def hTargetSkills : Str := ("target_skills").data
def hCreatedAt : Str := ("created_at").data
def hUpdatedAt : Str := ("updated_at").data
def hSessionId : Str := ("session_id").data
def hMood : Str := ("mood").data
def hEnvironment : Str := ("environment").data
def hSituation : Str := ("situation").data
def hPrompt : Str := ("prompt").data
def hUserId : Str := ("user_id").data
def hEmail : Str := ("email").data
def hPasswordHash : Str := ("password_hash").data
def hFullName : Str := ("full_name").data
def hRole : Str := ("role").data
def hLastLoginAt : Str := ("last_login_at").data

def CHILDREN_HEADERS : List Str :=
  [hChildId, hNickname, hAge, hCommLevel, hPersonality, hTriggersRaw,
   hTriggers, hInterestsRaw, hInterests, hTargetSkillsRaw, hTargetSkills,
   hCreatedAt, hUpdatedAt]

def SESSIONS_HEADERS : List Str :=
  [hSessionId, hChildId, hMood, hEnvironment, hSituation, hPrompt, hCreatedAt]

def USERS_HEADERS : List Str :=
  [hUserId, hEmail, hPasswordHash, hFullName, hRole, hCreatedAt, hUpdatedAt,
   hLastLoginAt]

def USER_CHILDREN_HEADERS : List Str := [hUserId, hChildId, hCreatedAt]

/-!
## Repository operations (`src/repositories/sheets_repo.py`)
-/

/-- Python truthiness of a looked-up record value (`None` and `""` are
falsy). -/
def truthy : Option Value → Bool
  | none => false
  | some .vNone => false
  | some (.vStr s) => s ≠ []
  | some (.vInt n) => n ≠ 0
  | some (.vDT _) => true

/-- Python `int(value)` on a record value; `none` models a raised
`ValueError`/`TypeError`. -/
def pyIntValue : Value → Option Int
  | .vStr s => pyInt s
  | .vInt n => some n
  | .vNone => none
  | .vDT _ => none

/-- `SheetsRepository.get_child`: locate by id (NotFound when absent), read
the row, deserialize, and coerce the `age` field with
`int(record["age"]) if record.get("age") else None`. -/
def getChild (children_ws : Ws) (child_id : Str) : Except Err Record :=
  match findRowById children_ws child_id with
  | none =>
    .error (.notFound (("Child '").data ++ child_id ++ ("' not found.").data))
  | some row_index =>
    let values := rowValues children_ws row_index
    let record := deserializeRow CHILDREN_HEADERS values
    if truthy (record hAge) then
      match pyIntValue ((record hAge).getD .vNone) with
      | some n => .ok (dictInsert record hAge (.vInt n))
      | none => .error (.valueError (("invalid literal for int").data))
    else .ok (dictInsert record hAge .vNone)

/-- `SheetsRepository.get_session`. -/
def getSession (sessions_ws : Ws) (session_id : Str) : Except Err Record :=
  match findRowById sessions_ws session_id with
  | none =>
    .error (.notFound (("Session '").data ++ session_id ++ ("' not found.").data))
  | some row_index =>
    .ok (deserializeRow SESSIONS_HEADERS (rowValues sessions_ws row_index))

/-- `SheetsRepository.get_user_by_id`: returns `none` (Python `None`) when no
row matches — it does not raise. -/
def getUserById (users_ws : Ws) (user_id : Str) : Option Record :=
  match findRowById users_ws user_id with
  | none => none
  | some row_index =>
    some (deserializeRow USERS_HEADERS (rowValues users_ws row_index))

/-- `SheetsRepository.get_user_by_email`: scan column 2 for the exact email;
returns `none` when no row matches. -/
def getUserByEmail (users_ws : Ws) (email : Str) : Option Record :=
  match findRowByColumn users_ws 2 email with
  | none => none
  | some row_index =>
    some (deserializeRow USERS_HEADERS (rowValues users_ws row_index))

/-- `SheetsRepository.create_user`: append the serialized row. -/
def createUser (users_ws : Ws) (record : Record) : Ws :=
  users_ws ++ [serializeRow USERS_HEADERS record]

/-- The write of `worksheet.update(f"A{i}:{letter}{i}", [new_row])`: replace
the first `new_row.length` cells of row `i` (the range width equals the
header count, which is exactly the length `_serialize_row` produces). -/
def writeRowRange (ws : Ws) (i : Nat) (new_row : List Str) : Ws :=
  ws.set (i - 1) (new_row ++ (rowValues ws i).drop new_row.length)

/-- The read-modify phase of `SheetsRepository.update_user` (everything
before the `worksheet.update` write): locate the row, read it, deserialize,
shallow-merge the updates, re-serialize.  Returns the row index, the new
serialized row, and the merged record. -/
def updateUserRead (users_ws : Ws) (user_id : Str) (updates : Record) :
    Except Err (Nat × List Str × Record) :=
  match findRowById users_ws user_id with
  | none =>
    .error (.notFound (("User '").data ++ user_id ++ ("' not found.").data))
  | some row_index =>
    let current_values := rowValues users_ws row_index
    let current_record := deserializeRow USERS_HEADERS current_values
    let merged := dictUpdate current_record updates
    .ok (row_index, serializeRow USERS_HEADERS merged, merged)

/-- `SheetsRepository.update_user`: the read-modify phase followed by the
range write of the whole row. -/
def updateUser (users_ws : Ws) (user_id : Str) (updates : Record) :
    Except Err (Ws × Record) :=
  match updateUserRead users_ws user_id updates with
  | .error e => .error e
  | .ok (row_index, new_row, merged) =>
    .ok (writeRowRange users_ws row_index new_row, merged)

/-- gspread `worksheet.get_all_records()`: the first row is the header list,
every later row is zipped against it (cells modelled as strings). -/
def getAllRecords (ws : Ws) : List Record :=
  match ws with
  | [] => []
  | header :: rows => rows.map (fun row => deserializeRow header row)

/-- The scan loop of `SheetsRepository.get_latest_session_for_child`,
carrying `latest_row` / `latest_created` accumulators.  Rows whose
`child_id` cell differs from the target or whose `created_at` cell is falsy
are skipped; a row is taken when its `created_at` string compares strictly
greater (Python string `>`) than the best seen. -/
def latestScan (child_id : Str) (rows : List Record)
    (latest_row : Option Record) (latest_created : Option Str) : Option Record :=
  match rows with
  | [] => latest_row
  | row :: rest =>
    if row hChildId ≠ some (.vStr child_id) then
      latestScan child_id rest latest_row latest_created
    else
      match row hCreatedAt with
      | some (.vStr s) =>
        if s = [] then latestScan child_id rest latest_row latest_created
        else
          match latest_created with
          | none => latestScan child_id rest (some row) (some s)
          | some prev =>
            if strLt prev s then latestScan child_id rest (some row) (some s)
            else latestScan child_id rest latest_row (some prev)
      | _ => latestScan child_id rest latest_row latest_created

/-- `SheetsRepository.get_latest_session_for_child`. -/
def getLatestSessionForChild (sessions_ws : Ws) (child_id : Str) : Option Record :=
  latestScan child_id (getAllRecords sessions_ws) none none

/-!
## Keyword processing (`src/common/keyword_processor.py`)
-/

def KEYWORD_MIN : Nat := 1
def KEYWORD_MAX : Nat := 7

structure KeywordRequest where
  label : Str
  raw_text : Str

/-- One token cleaning step: `token.strip().lower().replace(" ", "_")`. -/
def cleanToken (t : Str) : Str := pyReplaceSpace (pyLower (pyStrip t))

/-- `_normalize_tokens`: clean each token, drop empties, de-duplicate
keeping first occurrence. -/
def normalizeTokens (tokens : List Str) : List Str :=
  tokens.foldl
    (fun normalized token =>
      let cleaned := cleanToken token
      if cleaned = [] then normalized
      else if cleaned ∈ normalized then normalized
      else normalized ++ [cleaned])
    []

/-- The message of `_validate_token_count` for a given label and count. -/
def countErrMsg (label : Str) (n : Nat) : Str :=
  label ++ (" must contain between 1 and 7 keywords, got ").data ++
  natToStr n ++ (".").data

/-- `_validate_token_count`: require `1 <= len(tokens) <= 7`. -/
def validateTokenCount (tokens : List Str) (label : Str) : Except Err Unit :=
  if KEYWORD_MIN ≤ tokens.length ∧ tokens.length ≤ KEYWORD_MAX then .ok ()
  else .error (.validation (countErrMsg label tokens.length))

/-- `format_keywords`: normalize, enforce the count bound, join with
commas. -/
def format_keywords (tokens : List Str) : Except Err Str :=
  let normalized := normalizeTokens tokens
  match validateTokenCount normalized (("keywords").data) with
  | .error e => .error e
  | .ok _ => .ok (joinComma normalized)

/-- The token list `_parse_response` extracts from a backend response:
split on commas, keep the fragments whose strip is nonempty. -/
def responseTokens (response : Str) : List Str :=
  (splitComma response).filter (fun token => pyStrip token ≠ [])

/-- The message `_parse_response` raises on an empty response. -/
def emptyResponseMsg (label : Str) : Str :=
  ("Keyword generation returned empty response for ").data ++ label ++ (".").data

/-- `KeywordProcessor._parse_response`. -/
def parseResponse (response : Str) (label : Str) : Except Err (List Str) :=
  if response = [] then .error (.validation (emptyResponseMsg label))
  else .ok (responseTokens response)

/-- `KeywordProcessor._build_prompt` (the f-string instruction template). -/
def buildPrompt (request : KeywordRequest) : Str :=
  ("You are an assistant that extracts concise, lowercase keywords from parental notes.\n").data ++
  ("Return between 1 and 7 keywords separated by commas. Replace spaces with underscores.\n").data ++
  ("Label: ").data ++ request.label ++ ("\n").data ++
  ("The value after the label marker only tells you the keyword category, do not include the label itself or any prefix in the output.\n").data ++
  ("Input text:\n").data ++ pyStrip request.raw_text

/-- The message `process` raises when `raw_text` strips to empty. -/
def emptyRawMsg (label : Str) : Str :=
  label ++ ("_raw cannot be empty.").data

/-- `KeywordProcessor.process`: the backend generator is passed as a
function (`self._generate`); a generator failure is an error it returns. -/
def process (generate : Str → Except Err Str) (request : KeywordRequest) :
    Except Err Str :=
  let raw := pyStrip request.raw_text
  if raw = [] then .error (.validation (emptyRawMsg request.label))
  else
    match generate (buildPrompt request) with
    | .error e => .error e
    | .ok response =>
      match parseResponse response request.label with
      | .error e => .error e
      | .ok tokens => format_keywords tokens

/-!
## Environment validator (`src/schemas/sessions.py`)
-/

def LOCATION_VALUES : List Str := [("loc_indoor").data, ("loc_outdoor").data]

def NOISE_VALUES : List Str :=
  [("noise_quiet").data, ("noise_moderate").data, ("noise_noisy").data]

def CROWD_VALUES : List Str :=
  [("crowd_alone").data, ("crowd_few").data, ("crowd_many").data]

/-- The token list `_normalize_environment` works on:
`[token.strip() for token in value.split(",") if token.strip()]`. -/
def envTokens (value : Str) : List Str :=
  ((splitComma value).map pyStrip).filter (fun token => token ≠ [])

/-- `_normalize_environment`: exactly three nonempty stripped tokens, one
from each value set in location/noise/crowd order, then a (vacuous for the
legal sets) no-space check; the normalized result re-joins the stripped
tokens.  Errors model raised `ValueError`s. -/
def normalizeEnvironment (value : Str) : Except Err Str :=
  match envTokens value with
  | [location, noise, crowd] =>
    if location ∉ LOCATION_VALUES then
      .error (.valueError (("Invalid location token: ").data ++ location))
    else if noise ∉ NOISE_VALUES then
      .error (.valueError (("Invalid noise token: ").data ++ noise))
    else if crowd ∉ CROWD_VALUES then
      .error (.valueError (("Invalid crowd token: ").data ++ crowd))
    else if [location, noise, crowd].any (fun token => ' ' ∈ token) then
      .error (.valueError (("Environment tokens must not contain spaces.").data))
    else .ok (joinComma [location, noise, crowd])
  | _ =>
    .error (.valueError (("Environment must contain exactly three tokens.").data))

/-!
## Registration (`src/services/auth_service.py`, `src/common/security.py`)
-/

/-- `hash_password`: strip, reject fewer than eight characters, hash.  The
bcrypt digest itself is an external library call, modelled by the `digest`
parameter. -/
def hash_password (digest : Str → Str) (plain_password : Str) : Except Err Str :=
  let normalized := pyStrip plain_password
  if normalized.length < 8 then
    .error (.validation (("Password must be at least 8 characters long.").data))
  else .ok (digest normalized)

structure UserRegisterRequest where
  email : Str
  password : Str
  full_name : Str
  role : Str

/-- `AuthService.register`, up to persistence: reject an already-registered
email with a `ValidationError`, hash the password, build the user record
with `created_at = updated_at = last_login_at = to_isoformat(utc_now())`,
and append it via `create_user`.  The fresh UUID and the current time are
parameters; the JWT issued after persistence is not modelled (no claim
concerns it).  Returns the new users worksheet and the created record. -/
def register (digest : Str → Str) (users_ws : Ws)
    (payload : UserRegisterRequest) (now : DT) (user_id : Str) :
    Except Err (Ws × Record) :=
  match getUserByEmail users_ws payload.email with
  | some _ => .error (.validation (("Email is already registered.").data))
  | none =>
    let iso_now := to_isoformat now false
    match hash_password digest payload.password with
    | .error e => .error e
    | .ok password_hash =>
      let record := recordOf
        [(hUserId, .vStr user_id), (hEmail, .vStr payload.email),
         (hPasswordHash, .vStr password_hash), (hFullName, .vStr payload.full_name),
         (hRole, .vStr payload.role), (hCreatedAt, .vStr iso_now),
         (hUpdatedAt, .vStr iso_now), (hLastLoginAt, .vStr iso_now)]
      .ok (createUser users_ws record, record)

/-!
## Basic facts about the row locator
-/

lemma findFrom_ge (vals : List Str) (t : Str) :
    ∀ (i j : Nat), findFrom vals i t = some j → i ≤ j := by
  induction vals with
  | nil => intro i j h; simp [findFrom] at h
  | cons v rest ih =>
    intro i j h
    by_cases hv : v = t
    · simp [findFrom, hv] at h; omega
    · simp only [findFrom, if_neg hv] at h
      have := ih (i + 1) j h
      omega

lemma findFrom_lt (vals : List Str) (t : Str) :
    ∀ (i j : Nat), findFrom vals i t = some j → j < i + vals.length := by
  induction vals with
  | nil => intro i j h; simp [findFrom] at h
  | cons v rest ih =>
    intro i j h
    by_cases hv : v = t
    · simp [findFrom, hv] at h; simp; omega
    · simp only [findFrom, if_neg hv] at h
      have := ih (i + 1) j h
      simp; omega

lemma findRowById_bounds (ws : Ws) (id : Str) (i : Nat)
    (h : findRowById ws id = some i) : 1 ≤ i ∧ i ≤ ws.length := by
  unfold findRowById at h
  have h1 := findFrom_ge (colValues ws 1) id 1 i h
  have h2 := findFrom_lt (colValues ws 1) id 1 i h
  have h3 : (colValues ws 1).length = ws.length := List.length_map _ _
  omega

/-!
## Claim C3
-/

/-- Claim C3 (corrected): the children and sessions get-by-id operations
fail with `NotFound` when no row matches; on a match, sessions return the
deserialization of the entire row, and children return the deserialization
of the entire row with the `age` field coerced — `None` for an empty age
cell, the parsed integer for a numeric one, while a nonempty non-numeric
age cell makes `get_child` fail with an unhandled `ValueError` from
`int(...)`; the users get-by-id operation instead returns the absent value
`None` when no row matches, and the deserialized row otherwise — it never
raises `NotFound`. -/
theorem C3_thm :
    (∀ (ws : Ws) (cid : Str), findRowById ws cid = none →
      getChild ws cid =
        .error (.notFound (("Child '").data ++ cid ++ ("' not found.").data))) ∧
    (∀ (ws : Ws) (cid : Str) (i : Nat) (s : Str), findRowById ws cid = some i →
      (deserializeRow CHILDREN_HEADERS (rowValues ws i)) hAge = some (.vStr s) →
      (s = [] → getChild ws cid =
        .ok (dictInsert (deserializeRow CHILDREN_HEADERS (rowValues ws i))
          hAge .vNone)) ∧
      (∀ n : Int, pyInt s = some n → getChild ws cid =
        .ok (dictInsert (deserializeRow CHILDREN_HEADERS (rowValues ws i))
          hAge (.vInt n))) ∧
      (s ≠ [] → pyInt s = none → getChild ws cid =
        .error (.valueError (("invalid literal for int").data)))) ∧
    (∀ (ws : Ws) (sid : Str), findRowById ws sid = none →
      getSession ws sid =
        .error (.notFound (("Session '").data ++ sid ++ ("' not found.").data))) ∧
    (∀ (ws : Ws) (sid : Str) (i : Nat), findRowById ws sid = some i →
      getSession ws sid = .ok (deserializeRow SESSIONS_HEADERS (rowValues ws i))) ∧
    (∀ (ws : Ws) (uid : Str), findRowById ws uid = none →
      getUserById ws uid = none) ∧
    (∀ (ws : Ws) (uid : Str) (i : Nat), findRowById ws uid = some i →
      getUserById ws uid = some (deserializeRow USERS_HEADERS (rowValues ws i))) := by
  refine ⟨?_, ?_, ?_, ?_, ?_, ?_⟩
  · intro ws cid h
    simp [getChild, h]
  · intro ws cid i s hfind hrec
    have hgc : getChild ws cid =
        (if truthy ((deserializeRow CHILDREN_HEADERS (rowValues ws i)) hAge) then
          match pyIntValue
              (((deserializeRow CHILDREN_HEADERS (rowValues ws i)) hAge).getD .vNone) with
          | some n =>
            .ok (dictInsert (deserializeRow CHILDREN_HEADERS (rowValues ws i))
              hAge (.vInt n))
          | none => .error (.valueError (("invalid literal for int").data))
        else
          .ok (dictInsert (deserializeRow CHILDREN_HEADERS (rowValues ws i))
            hAge .vNone)) := by
      unfold getChild
      rw [hfind]
    refine ⟨?_, ?_, ?_⟩
    · intro hs
      subst hs
      rw [hgc, hrec]
      rfl
    · intro n hn
      have hsne : s ≠ [] := by
        intro h0
        subst h0
        rw [show pyInt [] = none from rfl] at hn
        exact absurd hn (by simp)
      rw [hgc, hrec,
        show truthy (some (Value.vStr s)) = decide (s ≠ []) from rfl,
        if_pos (decide_eq_true hsne),
        show pyIntValue ((some (Value.vStr s)).getD Value.vNone) = pyInt s from rfl,
        hn]
    · intro hsne hn
      rw [hgc, hrec,
        show truthy (some (Value.vStr s)) = decide (s ≠ []) from rfl,
        if_pos (decide_eq_true hsne),
        show pyIntValue ((some (Value.vStr s)).getD Value.vNone) = pyInt s from rfl,
        hn]
  · intro ws sid h
    simp [getSession, h]
  · intro ws sid i h
    simp [getSession, h]
  · intro ws uid h
    simp [getUserById, h]
  · intro ws uid i h
    simp [getUserById, h]

def demoSessionRow : List Str :=
  [("s1").data, ("c1").data, ("calm").data, ("env").data, ("sit").data,
   ("p").data, ("2024-01-01T00:00:00Z").data]

def demoSessionsWs : Ws := [SESSIONS_HEADERS, demoSessionRow]

def demoChildRow : List Str :=
  [("c1").data, ("Nick").data, ("7").data, ("low").data, ("calm").data,
   ("raw").data, ("kw").data, ("raw").data, ("kw").data, ("raw").data,
   ("kw").data, ("2024-01-01T00:00:00Z").data, ("2024-01-01T00:00:00Z").data]

def demoChildrenWs : Ws := [CHILDREN_HEADERS, demoChildRow]

/-- Concrete instantiation of `C3_thm`. -/
theorem C3_witness :
    getChild [] (("c1").data) =
      .error (.notFound (("Child '").data ++ ("c1").data ++ ("' not found.").data)) ∧
    getChild demoChildrenWs (("c1").data) =
      .ok (dictInsert (deserializeRow CHILDREN_HEADERS (rowValues demoChildrenWs 2))
        hAge (.vInt 7)) ∧
    getUserById [] (("u1").data) = none ∧
    getSession demoSessionsWs (("s1").data) =
      .ok (deserializeRow SESSIONS_HEADERS (rowValues demoSessionsWs 2)) :=
  ⟨C3_thm.1 [] (("c1").data) rfl,
   (C3_thm.2.1 demoChildrenWs (("c1").data) 2 (("7").data)
     (by decide) (by decide)).2.1 7 (by decide),
   C3_thm.2.2.2.2.1 [] (("u1").data) rfl,
   C3_thm.2.2.2.1 demoSessionsWs (("s1").data) 2 (by decide)⟩

/-- Claim C3 as stated is false for the users table: for an identifier with
no matching row, `get_user_by_id` returns the absent value `None` instead of
failing with `NotFound`. -/
theorem C3_counterexample :
    getUserById [USERS_HEADERS] (("nope").data) = none := rfl

/-!
## Claim C10
-/

/-- Claim C10 (corrected): the full-column scan of the row locator includes
the header row, so searching for the header text of column 1 returns row
index 1; `get_session("session_id")` consequently returns the deserialized
header row instead of `NotFound`.  However `get_child("child_id")` does not
return the deserialized header row: it fails with an unhandled `ValueError`,
because it applies `int(...)` to the header cell text `"age"`.  Only for
identifiers distinct from the column-1 header cell is a returned index
guaranteed to be a data row (index at least 2). -/
theorem C10_thm :
    (∀ rest : Ws, findRowById (CHILDREN_HEADERS :: rest) hChildId = some 1) ∧
    (∀ rest : Ws, getChild (CHILDREN_HEADERS :: rest) hChildId =
      .error (.valueError (("invalid literal for int").data))) ∧
    (∀ rest : Ws, getSession (SESSIONS_HEADERS :: rest) hSessionId =
      .ok (deserializeRow SESSIONS_HEADERS SESSIONS_HEADERS)) ∧
    (∀ (ws : Ws) (id : Str) (i : Nat) (row1 : List Str), ws.head? = some row1 →
      row1.getD 0 [] ≠ id → findRowById ws id = some i → 2 ≤ i) := by
  have hfind : ∀ rest : Ws, findRowById (CHILDREN_HEADERS :: rest) hChildId = some 1 := by
    intro rest
    simp [findRowById, colValues, findFrom, CHILDREN_HEADERS]
  have hfind2 : ∀ rest : Ws, findRowById (SESSIONS_HEADERS :: rest) hSessionId = some 1 := by
    intro rest
    simp [findRowById, colValues, findFrom, SESSIONS_HEADERS]
  refine ⟨hfind, ?_, ?_, ?_⟩
  · intro rest
    simp only [getChild, hfind rest]
    rfl
  · intro rest
    simp only [getSession, hfind2 rest]
    rfl
  · intro ws id i row1 hhead hne hfound
    cases ws with
    | nil => simp at hhead
    | cons r0 wsrest =>
      simp at hhead
      subst hhead
      unfold findRowById colValues at hfound
      simp only [List.map_cons, findFrom, if_neg hne] at hfound
      exact findFrom_ge _ _ 2 i hfound

/-- Concrete instantiation of `C10_thm`. -/
theorem C10_witness :
    findRowById [CHILDREN_HEADERS] hChildId = some 1 ∧
    getSession [SESSIONS_HEADERS] hSessionId =
      .ok (deserializeRow SESSIONS_HEADERS SESSIONS_HEADERS) ∧
    2 ≤ 2 :=
  ⟨C10_thm.1 [], C10_thm.2.2.1 [],
   C10_thm.2.2.2 [CHILDREN_HEADERS, demoSessionRow] (("s1").data) 2
     CHILDREN_HEADERS rfl (by decide) (by decide)⟩

/-- Claim C10 as stated is false in its `get_child` example: on a worksheet
whose row 1 is the standard children header, `get_child("child_id")` locates
row 1 but fails with a `ValueError` (from `int("age")`) rather than
returning the deserialized header row. -/
theorem C10_counterexample :
    findRowById [CHILDREN_HEADERS] hChildId = some 1 ∧
    errOf (getChild [CHILDREN_HEADERS] hChildId) =
      some (.valueError (("invalid literal for int").data)) := by
  constructor
  · decide
  · rfl

/-!
## The canonical timestamp string: structure lemmas
-/

/-- The first nineteen characters of an ISO rendering:
`YYYY-MM-DDTHH:MM:SS`. -/
def isoCore (d : DT) : Str :=
  pad4 d.year ++ '-' :: pad2 d.month ++ '-' :: pad2 d.day ++
  'T' :: pad2 d.hour ++ ':' :: pad2 d.minute ++ ':' :: pad2 d.second

lemma digitChar_ne_plus (n : Nat) : Nat.digitChar n ≠ '+' := by
  by_cases h : n < 16
  · interval_cases n <;> decide
  · have hstar : Nat.digitChar n = '*' := by
      unfold Nat.digitChar
      repeat rw [if_neg (by omega)]
    rw [hstar]; decide

lemma pad2_no_plus (n : Nat) : ∀ c ∈ pad2 n, c ≠ '+' := by
  intro c hc
  simp [pad2, digit] at hc
  rcases hc with rfl | rfl <;> exact digitChar_ne_plus _

lemma pad4_no_plus (n : Nat) : ∀ c ∈ pad4 n, c ≠ '+' := by
  intro c hc
  simp only [pad4, List.mem_append] at hc
  rcases hc with h | h <;> exact pad2_no_plus _ c h

lemma no_plus_append {a b : Str} (h1 : ∀ c ∈ a, c ≠ '+') (h2 : ∀ c ∈ b, c ≠ '+') :
    ∀ c ∈ a ++ b, c ≠ '+' := by
  intro c hc
  rcases List.mem_append.mp hc with h | h
  · exact h1 c h
  · exact h2 c h

lemma no_plus_cons {c0 : Char} {b : Str} (hc : c0 ≠ '+') (h : ∀ c ∈ b, c ≠ '+') :
    ∀ c ∈ c0 :: b, c ≠ '+' := by
  intro c hcm
  rcases List.mem_cons.mp hcm with rfl | hmem
  · exact hc
  · exact h c hmem

lemma isoCore_no_plus (d : DT) : ∀ c ∈ isoCore d, c ≠ '+' := by
  unfold isoCore
  apply no_plus_append (pad4_no_plus _)
  apply no_plus_cons (by decide)
  apply no_plus_append (pad2_no_plus _)
  apply no_plus_cons (by decide)
  apply no_plus_append (pad2_no_plus _)
  apply no_plus_cons (by decide)
  apply no_plus_append (pad2_no_plus _)
  apply no_plus_cons (by decide)
  apply no_plus_append (pad2_no_plus _)
  apply no_plus_cons (by decide)
  exact pad2_no_plus _

lemma replaceOffsetWithZ_cons (c : Char) (rest : Str) (h : c ≠ '+') :
    replaceOffsetWithZ (c :: rest) = c :: replaceOffsetWithZ rest := by
  rw [replaceOffsetWithZ.eq_def]
  split
  · rename_i heq
    injection heq with h1 _
    exact absurd h1 h
  · rename_i c2 rest2 _ heq
    injection heq with h1 h2
    subst h1; subst h2
    rfl
  · rename_i heq
    exact absurd heq (by simp)

lemma replaceOffset_append (core : Str) (h : ∀ c ∈ core, c ≠ '+') :
    replaceOffsetWithZ (core ++ utcOffsetSuffix) = core ++ ['Z'] := by
  induction core with
  | nil => rfl
  | cons c rest ih =>
    have hc : c ≠ '+' := h c (List.mem_cons_self c rest)
    rw [List.cons_append, replaceOffsetWithZ_cons c _ hc,
      ih (fun x hx => h x (List.mem_cons_of_mem c hx))]
    rfl

/-- `to_isoformat` with microseconds dropped always renders
`YYYY-MM-DDTHH:MM:SSZ`: the nineteen-character core followed by `Z`. -/
lemma to_isoformat_eq_core (d : DT) :
    to_isoformat d false = isoCore d ++ ['Z'] := by
  have hsplit : dtIsoformat { d with utc := true, microsecond := 0 } =
      isoCore d ++ utcOffsetSuffix := by
    simp [dtIsoformat, isoCore, List.append_assoc]
  unfold to_isoformat
  simp only [Bool.false_eq_true, if_false]
  rw [hsplit, replaceOffset_append (isoCore d) (isoCore_no_plus d)]

lemma getD_set_self {α : Type} (l : List α) (n : Nat) (a d : α) (h : n < l.length) :
    (l.set n a).getD n d = a := by
  rw [List.getD_eq_getElem _ _ (by simpa using h)]
  exact List.getElem_set_self (by simpa using h)

lemma serializeRow_length (headers : List Str) (r : Record) :
    (serializeRow headers r).length = headers.length := by
  simp [serializeRow]

/-!
## Claim C2
-/

/-- Claim C2 (corrected): `_serialize_row` emits, in column order, the empty
string for a column absent from the record or stored as `None`, the raw
`value.isoformat()` rendering for every datetime value, and the
stringification of every other value.  The datetime rendering is NOT the
canonical second-precision `Z`-suffixed UTC form: for a UTC-aware datetime,
`isoformat()` keeps microseconds and ends in the `+00:00` offset, and never
equals the canonical `to_isoformat` output. -/
theorem C2_thm :
    (∀ (headers : List Str) (r : Record) (i : Nat), i < headers.length →
      (serializeRow headers r).getD i [] =
        match r (headers.getD i []) with
        | none => []
        | some .vNone => []
        | some (.vDT d) => dtIsoformat d
        | some (.vStr s) => s
        | some (.vInt n) => intToStr n) ∧
    (∀ d : DT, d.utc = true → dtIsoformat d ≠ to_isoformat d false) := by
  constructor
  · intro headers r i hi
    unfold serializeRow
    rw [List.getD_eq_getElem _ _ (by simpa using hi), List.getElem_map,
      List.getD_eq_getElem _ _ hi]
    cases hr : r headers[i] with
    | none => rfl
    | some v => cases v <;> rfl
  · intro d hutc heq
    have hlen := congrArg List.length heq
    rw [to_isoformat_eq_core] at hlen
    have hcore : (isoCore d).length = 19 := by
      simp [isoCore, pad4, pad2]
    by_cases hm : d.microsecond = 0 <;>
      simp [dtIsoformat, hutc, hm, pad4, pad2, pad6, utcOffsetSuffix, hcore,
        isoCore] at hlen

def demoDT : DT := ⟨2024, 1, 1, 0, 0, 0, 0, true⟩

/-- Concrete instantiation of `C2_thm`. -/
theorem C2_witness :
    (serializeRow [hCreatedAt] emptyRecord).getD 0 [] = [] ∧
    dtIsoformat ⟨2024, 1, 1, 0, 0, 0, 5, true⟩ ≠
      to_isoformat ⟨2024, 1, 1, 0, 0, 0, 5, true⟩ false :=
  ⟨C2_thm.1 [hCreatedAt] emptyRecord 0 (by decide), C2_thm.2 _ rfl⟩

/-- Claim C2 as stated is false: serializing a record holding the UTC-aware
datetime 2024-01-01T00:00:00+00:00 emits the `+00:00`-suffixed
`isoformat()` string, not the canonical `Z`-suffixed form. -/
theorem C2_counterexample :
    serializeRow [hCreatedAt] (recordOf [(hCreatedAt, .vDT demoDT)]) =
      [("2024-01-01T00:00:00+00:00").data] ∧
    to_isoformat demoDT false = ("2024-01-01T00:00:00Z").data ∧
    ("2024-01-01T00:00:00+00:00").data ≠ ("2024-01-01T00:00:00Z").data := by
  refine ⟨by decide, by decide, by decide⟩

/-!
## Claim C1
-/

/-- Claim C1 (confirmed): if two `update_user` calls for the same user id
both read the original worksheet before either writes, then (i) they locate
the same row, (ii) the later writer's serialized row is the serialization of
the original stored record shallow-merged with only the later writer's
partial fields, (iii) applying the earlier write and then the later write
yields exactly the worksheet obtained by the later write alone — the earlier
writer's fields are silently lost (last-write-wins) — and (iv) the stored
row afterwards is the later writer's serialized row (plus any cells beyond
the written range). -/
theorem C1_thm :
    ∀ (users_ws : Ws) (user_id : Str) (uA uB : Record) (iA iB : Nat)
      (rowA rowB : List Str) (recA recB : Record),
      updateUserRead users_ws user_id uA = .ok (iA, rowA, recA) →
      updateUserRead users_ws user_id uB = .ok (iB, rowB, recB) →
      iB = iA ∧
      rowB = serializeRow USERS_HEADERS
        (dictUpdate (deserializeRow USERS_HEADERS (rowValues users_ws iB)) uB) ∧
      writeRowRange (writeRowRange users_ws iA rowA) iB rowB =
        writeRowRange users_ws iB rowB ∧
      rowValues (writeRowRange (writeRowRange users_ws iA rowA) iB rowB) iB =
        rowB ++ (rowValues users_ws iB).drop USERS_HEADERS.length := by
  intro ws uid uA uB iA iB rowA rowB recA recB hA hB
  unfold updateUserRead at hA hB
  cases hfind : findRowById ws uid with
  | none =>
    rw [hfind] at hA
    exact absurd hA (by simp)
  | some i =>
    rw [hfind] at hA hB
    simp only [Except.ok.injEq, Prod.mk.injEq] at hA hB
    obtain ⟨hiA, hrowA, -⟩ := hA
    obtain ⟨hiB, hrowB, -⟩ := hB
    subst hiA; subst hiB
    have hbound := findRowById_bounds ws uid i hfind
    have hlt : i - 1 < ws.length := by omega
    have hlenA : rowA.length = USERS_HEADERS.length := by
      rw [← hrowA]; exact serializeRow_length _ _
    have hlenB : rowB.length = USERS_HEADERS.length := by
      rw [← hrowB]; exact serializeRow_length _ _
    have hinner : rowValues (writeRowRange ws i rowA) i =
        rowA ++ (rowValues ws i).drop rowA.length := by
      unfold writeRowRange rowValues
      exact getD_set_self _ _ _ _ hlt
    have hdrop : (rowA ++ (rowValues ws i).drop rowA.length).drop rowB.length =
        (rowValues ws i).drop rowB.length := by
      rw [hlenB, ← hlenA, List.drop_left]
    have hcollapse : writeRowRange (writeRowRange ws i rowA) i rowB =
        writeRowRange ws i rowB := by
      unfold writeRowRange
      rw [show rowValues (List.set ws (i - 1)
            (rowA ++ List.drop rowA.length (rowValues ws i))) i =
          rowA ++ (rowValues ws i).drop rowA.length from hinner]
      rw [hdrop, List.set_set]
    refine ⟨rfl, hrowB.symm, hcollapse, ?_⟩
    rw [hcollapse]
    unfold writeRowRange rowValues
    rw [getD_set_self _ _ _ _ hlt, ← hlenB]

def demoUserRow : List Str :=
  [("u1").data, ("a@b.c").data, ("hash").data, ("Ann").data, ("parent").data,
   ("2024-01-01T00:00:00Z").data, ("2024-01-01T00:00:00Z").data,
   ("2024-01-01T00:00:00Z").data]

def demoUsersWs : Ws := [USERS_HEADERS, demoUserRow]

def demoUpdA : Record := recordOf [(hFullName, .vStr (("Amy").data))]

def demoUpdB : Record := recordOf [(hRole, .vStr (("therapist").data))]

/-- Concrete instantiation of `C1_thm`: two updates of user `u1`, the first
changing `full_name`, the second changing `role`, both read before either
writes; the final sheet is the one the second write alone would produce. -/
theorem C1_witness :
    writeRowRange (writeRowRange demoUsersWs 2
        (serializeRow USERS_HEADERS
          (dictUpdate (deserializeRow USERS_HEADERS (rowValues demoUsersWs 2)) demoUpdA)))
      2
      (serializeRow USERS_HEADERS
        (dictUpdate (deserializeRow USERS_HEADERS (rowValues demoUsersWs 2)) demoUpdB)) =
    writeRowRange demoUsersWs 2
      (serializeRow USERS_HEADERS
        (dictUpdate (deserializeRow USERS_HEADERS (rowValues demoUsersWs 2)) demoUpdB)) :=
  (C1_thm demoUsersWs (("u1").data) demoUpdA demoUpdB 2 2 _ _ _ _ rfl rfl).2.2.1

/-!
## Claim C4
-/

/-- Claim C4 (corrected): when the register payload's email case-sensitively
equals a stored user's email, `register` fails with a VALIDATION error (not
a conflict error as the spec's taxonomy assigns) and appends no user row;
with a fresh email and a password of at least eight characters after
trimming, it appends exactly one user row, whose record carries
`created_at = updated_at = last_login_at = to_isoformat(now)`. -/
theorem C4_thm :
    (∀ (digest : Str → Str) (users_ws : Ws) (p : UserRegisterRequest)
       (now : DT) (uid : Str) (r : Record),
      getUserByEmail users_ws p.email = some r →
      register digest users_ws p now uid =
        .error (.validation (("Email is already registered.").data))) ∧
    (∀ (digest : Str → Str) (users_ws : Ws) (p : UserRegisterRequest)
       (now : DT) (uid : Str),
      getUserByEmail users_ws p.email = none →
      8 ≤ (pyStrip p.password).length →
      ∃ rec : Record,
        register digest users_ws p now uid =
          .ok (users_ws ++ [serializeRow USERS_HEADERS rec], rec) ∧
        rec hCreatedAt = some (.vStr (to_isoformat now false)) ∧
        rec hUpdatedAt = some (.vStr (to_isoformat now false)) ∧
        rec hLastLoginAt = some (.vStr (to_isoformat now false))) := by
  constructor
  · intro digest ws p now uid r hdup
    unfold register
    rw [hdup]
  · intro digest ws p now uid hfresh hpw
    unfold register
    rw [hfresh]
    unfold hash_password
    rw [if_neg (by omega)]
    refine ⟨_, rfl, ?_, ?_, ?_⟩ <;> rfl

def demoPayload : UserRegisterRequest :=
  ⟨("a@b.c").data, ("longenough").data, ("Ann").data, ("parent").data⟩

def demoPayload2 : UserRegisterRequest :=
  ⟨("new@b.c").data, ("longenough").data, ("Bob").data, ("parent").data⟩

/-- Concrete instantiation of `C4_thm`: registering `a@b.c` against a sheet
already holding it fails with the validation error; registering a fresh
email appends one row stamped with the registration time. -/
theorem C4_witness :
    register id demoUsersWs demoPayload demoDT (("u2").data) =
      .error (.validation (("Email is already registered.").data)) ∧
    ∃ rec : Record,
      register id demoUsersWs demoPayload2 demoDT (("u2").data) =
        .ok (demoUsersWs ++ [serializeRow USERS_HEADERS rec], rec) ∧
      rec hCreatedAt = some (.vStr (to_isoformat demoDT false)) ∧
      rec hUpdatedAt = some (.vStr (to_isoformat demoDT false)) ∧
      rec hLastLoginAt = some (.vStr (to_isoformat demoDT false)) :=
  ⟨C4_thm.1 id demoUsersWs demoPayload demoDT (("u2").data)
      (deserializeRow USERS_HEADERS demoUserRow) rfl,
   C4_thm.2 id demoUsersWs demoPayload2 demoDT (("u2").data) rfl (by decide)⟩

/-- Claim C4 as stated is false: registering a duplicate email fails with a
`ValidationError` (the validation category, HTTP 400), not an error in the
conflict category. -/
theorem C4_counterexample :
    errOf (register id demoUsersWs demoPayload demoDT (("u2").data)) =
      some (.validation (("Email is already registered.").data)) ∧
    ∀ msg : Str,
      errOf (register id demoUsersWs demoPayload demoDT (("u2").data)) ≠
        some (.conflict msg) := by
  constructor
  · rfl
  · intro msg h
    rw [show errOf (register id demoUsersWs demoPayload demoDT (("u2").data)) =
      some (.validation (("Email is already registered.").data)) from rfl] at h
    simp at h

/-!
## Claim C9
-/

lemma zip_self_map {α β : Type} (l : List α) (f : α → β) :
    l.zip (l.map f) = l.map (fun a => (a, f a)) := by
  induction l with
  | nil => rfl
  | cons a t ih => simp [ih]

lemma foldl_insert_lookup (f : Str → Str) (l : List Str) (r0 : Record) (c : Str) :
    ((l.map (fun h => (h, f h))).foldl
        (fun r p => dictInsert r p.1 (.vStr p.2)) r0) c =
      if c ∈ l then some (.vStr (f c)) else r0 c := by
  induction l generalizing r0 with
  | nil => simp
  | cons h t ih =>
    simp only [List.map_cons, List.foldl_cons, ih, List.mem_cons]
    by_cases hct : c ∈ t
    · simp [hct]
    · by_cases hch : c = h
      · subst hch
        simp [hct, dictInsert]
      · simp [hct, hch, dictInsert]

lemma deserialize_serialize (headers : List Str) (r : Record) (c : Str)
    (hc : c ∈ headers) :
    deserializeRow headers (serializeRow headers r) c =
      some (.vStr (serializeCell ((r c).getD (.vStr [])))) := by
  unfold deserializeRow
  rw [serializeRow_length, Nat.sub_self]
  simp only [List.replicate_zero, List.append_nil]
  unfold serializeRow
  rw [zip_self_map, foldl_insert_lookup, if_pos hc]

/-- Claim C9 (confirmed): for a record whose values are all strings,
deserializing its serialization against the same column list agrees with
the original on every column — a column absent from the record comes back
as the empty string, every other column comes back with its original
value. -/
theorem C9_thm :
    ∀ (headers : List Str) (r : Record),
      (∀ k v, r k = some v → ∃ s : Str, v = .vStr s) →
      ∀ c ∈ headers,
        (r c = none ∧
          deserializeRow headers (serializeRow headers r) c = some (.vStr [])) ∨
        deserializeRow headers (serializeRow headers r) c = r c := by
  intro headers r hstr c hc
  cases hr : r c with
  | none =>
    left
    refine ⟨rfl, ?_⟩
    rw [deserialize_serialize headers r c hc, hr]
    rfl
  | some v =>
    right
    obtain ⟨s, rfl⟩ := hstr c v hr
    rw [deserialize_serialize headers r c hc, hr]
    rfl

def demoRecC9 : Record :=
  fun k => if k = hEmail then some (.vStr (("a@b.c").data)) else none

/-- Concrete instantiation of `C9_thm`. -/
theorem C9_witness :
    (demoRecC9 hEmail = none ∧
      deserializeRow USERS_HEADERS (serializeRow USERS_HEADERS demoRecC9) hEmail =
        some (.vStr [])) ∨
    deserializeRow USERS_HEADERS (serializeRow USERS_HEADERS demoRecC9) hEmail =
      demoRecC9 hEmail := by
  apply C9_thm
  · intro k v hkv
    by_cases h : k = hEmail
    · simp [demoRecC9, h] at hkv
      exact ⟨_, hkv.symm⟩
    · simp [demoRecC9, h] at hkv
  · decide

/-!
## Claim C8
-/

/-- Definition following the spec's words for claim C8: `s` is EXACTLY one
location token, one noise token and one crowd token, comma-joined in that
order with no extra characters. -/
def specEnvExactForm (s : Str) : Bool :=
  LOCATION_VALUES.any fun l => NOISE_VALUES.any fun n => CROWD_VALUES.any fun c =>
    decide (s = l ++ ',' :: n ++ ',' :: c)

lemma normalizeEnvironment_ok_of_tokens (s l n c : Str)
    (htok : envTokens s = [l, n, c]) (hl : l ∈ LOCATION_VALUES)
    (hn : n ∈ NOISE_VALUES) (hc : c ∈ CROWD_VALUES) :
    normalizeEnvironment s = .ok (joinComma [l, n, c]) := by
  unfold normalizeEnvironment
  rw [htok]
  simp only [LOCATION_VALUES, NOISE_VALUES, CROWD_VALUES, List.mem_cons,
    List.not_mem_nil, or_false] at hl hn hc
  rcases hl with rfl | rfl <;> rcases hn with rfl | rfl | rfl <;>
    rcases hc with rfl | rfl | rfl <;> decide

/-- Claim C8 (corrected): the environment validator accepts `s` iff
splitting `s` on commas, stripping each fragment and discarding empty
fragments yields exactly one location token, then one noise token, then one
crowd token, in that order (the accepted value is their comma-rejoin); every
string of the spec's exact comma-joined form is accepted unchanged, but
strings that differ from that form by surrounding whitespace or empty
fragments are accepted as well, so acceptance is NOT limited to the exact
form. -/
theorem C8_thm :
    ∀ s : Str,
      ((∃ out, normalizeEnvironment s = .ok out) ↔
        ∃ l n c, envTokens s = [l, n, c] ∧ l ∈ LOCATION_VALUES ∧
          n ∈ NOISE_VALUES ∧ c ∈ CROWD_VALUES) ∧
      (∀ l n c, envTokens s = [l, n, c] → l ∈ LOCATION_VALUES →
        n ∈ NOISE_VALUES → c ∈ CROWD_VALUES →
        normalizeEnvironment s = .ok (joinComma [l, n, c])) ∧
      (specEnvExactForm s = true → normalizeEnvironment s = .ok s) := by
  intro s
  refine ⟨⟨?_, ?_⟩, ?_, ?_⟩
  · rintro ⟨out, hout⟩
    unfold normalizeEnvironment at hout
    rcases hts : envTokens s with _ | ⟨l, _ | ⟨n, _ | ⟨c, _ | ⟨d, rest⟩⟩⟩⟩ <;>
      rw [hts] at hout
    · simp at hout
    · simp at hout
    · simp at hout
    · dsimp only at hout
      split_ifs at hout with h1 h2 h3 h4
      exact ⟨l, n, c, rfl, h1, h2, h3⟩
    · simp at hout
  · rintro ⟨l, n, c, htok, hl, hn, hc⟩
    exact ⟨_, normalizeEnvironment_ok_of_tokens s l n c htok hl hn hc⟩
  · intro l n c htok hl hn hc
    exact normalizeEnvironment_ok_of_tokens s l n c htok hl hn hc
  · intro hs
    simp only [specEnvExactForm, List.any_eq_true, decide_eq_true_eq] at hs
    obtain ⟨l, hl, n, hn, c, hc, rfl⟩ := hs
    fin_cases hl <;> fin_cases hn <;> fin_cases hc <;> decide

/-- Concrete instantiation of `C8_thm`. -/
theorem C8_witness :
    normalizeEnvironment (("loc_indoor,noise_quiet,crowd_alone").data) =
      .ok (("loc_indoor,noise_quiet,crowd_alone").data) :=
  (C8_thm (("loc_indoor,noise_quiet,crowd_alone").data)).2.2 (by decide)

/-- Claim C8 as stated is false: the string `"loc_indoor ,noise_quiet,
crowd_alone"` (with a stray space before the first comma) is not of the
exact comma-joined form, yet the validator accepts it (normalising it). -/
theorem C8_counterexample :
    normalizeEnvironment (("loc_indoor ,noise_quiet,crowd_alone").data) =
      .ok (("loc_indoor,noise_quiet,crowd_alone").data) ∧
    specEnvExactForm (("loc_indoor ,noise_quiet,crowd_alone").data) = false := by
  constructor <;> decide

/-!
## Claim C7
-/

/-- Claim C7 (corrected): `KeywordProcessor.process` fails with a validation
error in exactly these cases (assuming the backend call itself succeeds):
a raw text that strips to empty fails before any backend call (the result
does not depend on the generator at all); a NONEMPTY backend response whose
parsed-and-normalized token count is 0 or greater than 7 fails after
normalization with the token-count message; the EMPTY backend response
(whose parsed-and-normalized token count is 0) fails during response
parsing, before normalization, with the empty-response message, not the
token-count message. -/
theorem C7_thm :
    (∀ (gen gen' : Str → Except Err Str) (req : KeywordRequest),
      pyStrip req.raw_text = [] →
      process gen req = .error (.validation (emptyRawMsg req.label)) ∧
      process gen req = process gen' req) ∧
    (∀ (gen : Str → Except Err Str) (req : KeywordRequest) (resp : Str),
      pyStrip req.raw_text ≠ [] → gen (buildPrompt req) = .ok resp → resp ≠ [] →
      (¬(1 ≤ (normalizeTokens (responseTokens resp)).length ∧
          (normalizeTokens (responseTokens resp)).length ≤ 7) →
        process gen req = .error (.validation
          (countErrMsg (("keywords").data)
            (normalizeTokens (responseTokens resp)).length))) ∧
      ((1 ≤ (normalizeTokens (responseTokens resp)).length ∧
          (normalizeTokens (responseTokens resp)).length ≤ 7) →
        process gen req = .ok (joinComma (normalizeTokens (responseTokens resp))))) ∧
    (∀ (gen : Str → Except Err Str) (req : KeywordRequest),
      pyStrip req.raw_text ≠ [] → gen (buildPrompt req) = .ok [] →
      process gen req = .error (.validation (emptyResponseMsg req.label))) ∧
    (∀ (gen : Str → Except Err Str) (req : KeywordRequest) (resp : Str),
      gen (buildPrompt req) = .ok resp →
      ((∃ m, process gen req = .error (.validation m)) ↔
        (pyStrip req.raw_text = [] ∨
          (normalizeTokens (responseTokens resp)).length = 0 ∨
          7 < (normalizeTokens (responseTokens resp)).length))) := by
  have hempty : ∀ (gen : Str → Except Err Str) (req : KeywordRequest),
      pyStrip req.raw_text = [] →
      process gen req = .error (.validation (emptyRawMsg req.label)) := by
    intro gen req h
    unfold process
    rw [if_pos h]
  have hemptyresp : ∀ (gen : Str → Except Err Str) (req : KeywordRequest),
      pyStrip req.raw_text ≠ [] → gen (buildPrompt req) = .ok [] →
      process gen req = .error (.validation (emptyResponseMsg req.label)) := by
    intro gen req hraw hgen
    unfold process parseResponse
    rw [if_neg hraw, hgen]
    rfl
  have hok : ∀ (gen : Str → Except Err Str) (req : KeywordRequest) (resp : Str),
      pyStrip req.raw_text ≠ [] → gen (buildPrompt req) = .ok resp → resp ≠ [] →
      process gen req = format_keywords (responseTokens resp) := by
    intro gen req resp hraw hgen hresp
    unfold process parseResponse
    rw [if_neg hraw, hgen]
    dsimp only
    rw [if_neg hresp]
  refine ⟨?_, ?_, hemptyresp, ?_⟩
  · intro gen gen' req h
    refine ⟨hempty gen req h, ?_⟩
    rw [hempty gen req h, hempty gen' req h]
  · intro gen req resp hraw hgen hresp
    constructor
    · intro hcount
      rw [hok gen req resp hraw hgen hresp]
      simp only [format_keywords, validateTokenCount, KEYWORD_MIN, KEYWORD_MAX]
      rw [if_neg hcount]
    · intro hcount
      rw [hok gen req resp hraw hgen hresp]
      simp only [format_keywords, validateTokenCount, KEYWORD_MIN, KEYWORD_MAX]
      rw [if_pos hcount]
  · intro gen req resp hgen
    by_cases hraw : pyStrip req.raw_text = []
    · exact ⟨fun _ => Or.inl hraw,
        fun _ => ⟨emptyRawMsg req.label, hempty gen req hraw⟩⟩
    · by_cases hresp : resp = []
      · subst hresp
        constructor
        · intro _
          right; left
          decide
        · intro _
          exact ⟨_, hemptyresp gen req hraw hgen⟩
      · rw [hok gen req resp hraw hgen hresp]
        simp only [format_keywords, validateTokenCount, KEYWORD_MIN, KEYWORD_MAX]
        by_cases hc : 1 ≤ (normalizeTokens (responseTokens resp)).length ∧
            (normalizeTokens (responseTokens resp)).length ≤ 7
        · rw [if_pos hc]
          constructor
          · rintro ⟨m, hm⟩
            exact absurd hm (by simp)
          · rintro (h | h | h)
            · exact absurd h hraw
            · omega
            · omega
        · rw [if_neg hc]
          constructor
          · intro _
            right
            omega
          · intro _
            exact ⟨_, rfl⟩

def demoReq : KeywordRequest := ⟨("triggers").data, ("loud noises").data⟩

/-- Concrete instantiation of `C7_thm`: a backend response of two tokens is
accepted, a backend response of eight tokens fails with the token-count
validation error. -/
theorem C7_witness :
    process (fun _ => .ok (("a,b").data)) demoReq = .ok (("a,b").data) ∧
    process (fun _ => .ok (("a,b,c,d,e,f,g,h").data)) demoReq =
      .error (.validation (countErrMsg (("keywords").data) 8)) := by
  constructor
  · have h := ((C7_thm.2.1 (fun _ => .ok (("a,b").data)) demoReq
      (("a,b").data) (by decide) rfl (by decide)).2 (by decide))
    rw [h]
    decide
  · have h := ((C7_thm.2.1 (fun _ => .ok (("a,b,c,d,e,f,g,h").data)) demoReq
      (("a,b,c,d,e,f,g,h").data) (by decide) rfl (by decide)).1 (by decide))
    rw [h]
    decide

/-- Claim C7 as stated is false for the empty backend response: its
parsed-and-normalized token count is 0, yet the failure happens during
response parsing, before normalization, with the empty-response message
rather than the post-normalization token-count message. -/
theorem C7_counterexample :
    (normalizeTokens (responseTokens [])).length = 0 ∧
    process (fun _ => .ok []) demoReq =
      .error (.validation (emptyResponseMsg (("triggers").data))) ∧
    emptyResponseMsg (("triggers").data) ≠
      countErrMsg (("keywords").data) 0 := by
  refine ⟨by decide, by decide, by decide⟩

/-!
## Character and strip lemmas for keyword normalization
-/

lemma char_toNat_ofNat (k : Nat) (h : k < 55296) : (Char.ofNat k).toNat = k := by
  have hv : Nat.isValidChar k := Or.inl h
  simp only [Char.ofNat, hv, dif_pos]
  simp [Char.ofNatAux, Char.toNat, UInt32.toNat]

lemma char_toNat_inj {x y : Char} (h : x.toNat = y.toNat) : x = y := by
  cases x; cases y
  simp only [Char.toNat] at h
  congr 1
  exact UInt32.toNat.inj h

lemma lowerChar_toNat_upper {c : Char} (h : 65 ≤ c.toNat ∧ c.toNat ≤ 90) :
    (lowerChar c).toNat = c.toNat + 32 := by
  unfold lowerChar
  rw [if_pos h]
  exact char_toNat_ofNat _ (by omega)

lemma lowerChar_eq_self {c : Char} (h : ¬(65 ≤ c.toNat ∧ c.toNat ≤ 90)) :
    lowerChar c = c := if_neg h

lemma lowerChar_not_upper (c : Char) :
    ¬(65 ≤ (lowerChar c).toNat ∧ (lowerChar c).toNat ≤ 90) := by
  by_cases h : 65 ≤ c.toNat ∧ c.toNat ≤ 90
  · rw [lowerChar_toNat_upper h]; omega
  · rw [lowerChar_eq_self h]; exact h

lemma lowerChar_idem (c : Char) : lowerChar (lowerChar c) = lowerChar c :=
  lowerChar_eq_self (lowerChar_not_upper c)

lemma isSpaceChar_false_of_ge (c : Char) (h : 33 ≤ c.toNat) :
    isSpaceChar c = false := by
  unfold isSpaceChar
  simp only [Bool.or_eq_false_iff, decide_eq_false_iff_not]
  refine ⟨⟨⟨⟨⟨?_, ?_⟩, ?_⟩, ?_⟩, ?_⟩, ?_⟩ <;>
    (intro he; subst he; exact absurd h (by decide))

lemma isSpaceChar_lowerChar {c : Char} (h : isSpaceChar c = false) :
    isSpaceChar (lowerChar c) = false := by
  by_cases hc : 65 ≤ c.toNat ∧ c.toNat ≤ 90
  · exact isSpaceChar_false_of_ge _ (by rw [lowerChar_toNat_upper hc]; omega)
  · rw [lowerChar_eq_self hc]; exact h

lemma spaceToUnderscore_ne_space (c : Char) : spaceToUnderscore c ≠ ' ' := by
  unfold spaceToUnderscore
  split
  · decide
  · assumption

lemma spaceToUnderscore_eq_self {c : Char} (h : c ≠ ' ') :
    spaceToUnderscore c = c := if_neg h

lemma isSpaceChar_spaceToUnderscore {c : Char} (h : isSpaceChar c = false) :
    isSpaceChar (spaceToUnderscore c) = false := by
  unfold spaceToUnderscore
  split
  · rename_i he
    subst he
    exact absurd h (by decide)
  · exact h

lemma lowerChar_spaceToUnderscore_lowerChar (c : Char) :
    lowerChar (spaceToUnderscore (lowerChar c)) = spaceToUnderscore (lowerChar c) := by
  by_cases h : lowerChar c = ' '
  · rw [h]
    decide
  · rw [spaceToUnderscore_eq_self h, lowerChar_idem]

lemma dropWhile_head_false {p : Char → Bool} {l : List Char} {c : Char} {t : List Char}
    (h : l.dropWhile p = c :: t) : p c = false := by
  have w : l.dropWhile p ≠ [] := by rw [h]; simp
  have := List.head_dropWhile_not p l w
  rwa [show (l.dropWhile p).head w = c by rw [List.head_eq_iff_head?_eq_some w, h]; rfl]
    at this

lemma dropWhile_eq_self_of_head {p : Char → Bool} (l : List Char)
    (h : ∀ c t, l = c :: t → p c = false) : l.dropWhile p = l := by
  cases l with
  | nil => rfl
  | cons c t => rw [List.dropWhile_cons, if_neg (by rw [h c t rfl]; simp)]

lemma pyStrip_eq_self (s : Str)
    (hh : ∀ c t, s = c :: t → isSpaceChar c = false)
    (hl : ∀ c t, s.reverse = c :: t → isSpaceChar c = false) : pyStrip s = s := by
  unfold pyStrip
  rw [dropWhile_eq_self_of_head s hh, dropWhile_eq_self_of_head s.reverse hl,
    List.reverse_reverse]

lemma pyStrip_last_false (s : Str) (c : Char) (t : List Char)
    (h : (pyStrip s).reverse = c :: t) : isSpaceChar c = false := by
  unfold pyStrip at h
  rw [List.reverse_reverse] at h
  exact dropWhile_head_false h

lemma pyStrip_head_false (s : Str) (c : Char) (t : List Char)
    (h : pyStrip s = c :: t) : isSpaceChar c = false := by
  set B := s.dropWhile isSpaceChar with hB
  set A := B.reverse.dropWhile isSpaceChar with hA
  have hps : pyStrip s = A.reverse := rfl
  have hAne : A ≠ [] := by
    intro hnil
    rw [hps, hnil] at h
    simp at h
  have h1 : A.getLast? = some c := by
    rw [← List.head?_reverse, ← hps, h]
    rfl
  obtain ⟨pre, hpre⟩ : A <:+ B.reverse := List.dropWhile_suffix _
  have h2 : B.reverse.getLast? = some c := by
    rw [← hpre, List.getLast?_append, h1]
    rfl
  rw [List.getLast?_reverse] at h2
  cases hBs : B with
  | nil => rw [hBs] at h2; simp at h2
  | cons b bt =>
    rw [hBs] at h2
    simp at h2
    subst h2
    exact dropWhile_head_false hBs

/-!
## Idempotence machinery for keyword normalization
-/

lemma pyStrip_map_of_strip (g : Char → Char)
    (hg : ∀ c, isSpaceChar c = false → isSpaceChar (g c) = false) (s : Str) :
    pyStrip (List.map g (pyStrip s)) = List.map g (pyStrip s) := by
  apply pyStrip_eq_self
  · intro c t h
    cases hs : pyStrip s with
    | nil => rw [hs] at h; simp at h
    | cons c0 t0 =>
      rw [hs] at h
      simp only [List.map_cons, List.cons.injEq] at h
      rw [← h.1]
      exact hg c0 (pyStrip_head_false s c0 t0 hs)
  · intro c t h
    rw [← List.map_reverse] at h
    cases hs : (pyStrip s).reverse with
    | nil => rw [hs] at h; simp at h
    | cons c0 t0 =>
      rw [hs] at h
      simp only [List.map_cons, List.cons.injEq] at h
      rw [← h.1]
      exact hg c0 (pyStrip_last_false s c0 t0 hs)

lemma cleanToken_idem (t : Str) : cleanToken (cleanToken t) = cleanToken t := by
  have hg : ∀ c, isSpaceChar c = false →
      isSpaceChar (spaceToUnderscore (lowerChar c)) = false := fun c hc =>
    isSpaceChar_spaceToUnderscore (isSpaceChar_lowerChar hc)
  have hct : cleanToken t =
      List.map (fun c => spaceToUnderscore (lowerChar c)) (pyStrip t) := by
    unfold cleanToken pyReplaceSpace pyLower
    rw [List.map_map]
    rfl
  have hstrip : pyStrip (cleanToken t) = cleanToken t := by
    rw [hct]
    exact pyStrip_map_of_strip _ hg t
  have hfinal : pyReplaceSpace (pyLower (cleanToken t)) = cleanToken t := by
    rw [hct]
    unfold pyLower pyReplaceSpace
    rw [List.map_map, List.map_map]
    apply List.map_congr_left
    intro c _
    simp only [Function.comp]
    rw [lowerChar_spaceToUnderscore_lowerChar,
      spaceToUnderscore_eq_self (spaceToUnderscore_ne_space _)]
  calc cleanToken (cleanToken t)
      = pyReplaceSpace (pyLower (pyStrip (cleanToken t))) := rfl
    _ = pyReplaceSpace (pyLower (cleanToken t)) := by rw [hstrip]
    _ = cleanToken t := hfinal

/-- The fold step of `_normalize_tokens`. -/
def normStep (normalized : List Str) (token : Str) : List Str :=
  let cleaned := cleanToken token
  if cleaned = [] then normalized
  else if cleaned ∈ normalized then normalized
  else normalized ++ [cleaned]

lemma normalizeTokens_eq_foldl (tokens : List Str) :
    normalizeTokens tokens = tokens.foldl normStep [] := rfl

lemma normStep_invariant (L : List Str) :
    ∀ acc : List Str,
      (acc.Nodup ∧ ∀ t ∈ acc, t ≠ [] ∧ cleanToken t = t) →
      ((L.foldl normStep acc).Nodup ∧
        ∀ t ∈ L.foldl normStep acc, t ≠ [] ∧ cleanToken t = t) := by
  induction L with
  | nil => intro acc h; exact h
  | cons tok rest ih =>
    intro acc hacc
    rw [List.foldl_cons]
    apply ih
    simp only [normStep]
    split
    · exact hacc
    · split
      · exact hacc
      · rename_i hne hnotmem
        constructor
        · rw [List.nodup_append]
          refine ⟨hacc.1, List.nodup_singleton _, ?_⟩
          intro x hx hxa
          rw [List.mem_singleton.mp hxa] at hx
          exact hnotmem hx
        · intro t ht
          rcases List.mem_append.mp ht with h | h
          · exact hacc.2 t h
          · rw [List.mem_singleton.mp h]
            exact ⟨hne, cleanToken_idem tok⟩

lemma normalizeTokens_spec (L : List Str) :
    (normalizeTokens L).Nodup ∧
      ∀ t ∈ normalizeTokens L, t ≠ [] ∧ cleanToken t = t := by
  rw [normalizeTokens_eq_foldl]
  exact normStep_invariant L [] ⟨List.nodup_nil, fun t ht => absurd ht (by simp)⟩

lemma foldl_normStep_fixed (L : List Str) :
    ∀ acc : List Str,
      (∀ t ∈ L, t ≠ [] ∧ cleanToken t = t) → (acc ++ L).Nodup →
      L.foldl normStep acc = acc ++ L := by
  induction L with
  | nil => intro acc _ _; simp
  | cons tok rest ih =>
    intro acc hL hnd
    rw [List.foldl_cons]
    have htok := hL tok (List.mem_cons_self tok rest)
    have hstep : normStep acc tok = acc ++ [tok] := by
      unfold normStep
      rw [htok.2]
      rw [if_neg htok.1]
      rw [if_neg ?notmem]
      case notmem =>
        intro hmem
        have := (List.nodup_append.mp hnd).2.2
        exact this hmem (List.mem_cons_self tok rest)
    rw [hstep]
    rw [ih (acc ++ [tok]) (fun t ht => hL t (List.mem_cons_of_mem tok ht)) ?nd]
    · simp
    case nd =>
      rw [List.append_assoc]
      simpa using hnd

lemma normalizeTokens_fixed (L : List Str)
    (hL : ∀ t ∈ L, t ≠ [] ∧ cleanToken t = t) (hnd : L.Nodup) :
    normalizeTokens L = L := by
  rw [normalizeTokens_eq_foldl]
  have := foldl_normStep_fixed L [] hL (by simpa using hnd)
  simpa using this

/-!
## Split / join inverse lemmas
-/

lemma splitComma_single (t : Str) (h : ',' ∉ t) : splitComma t = [t] := by
  induction t with
  | nil => rfl
  | cons c rest ih =>
    have hc : c ≠ ',' := fun he => h (he ▸ List.mem_cons_self c rest)
    unfold splitComma
    rw [if_neg hc, ih (fun hm => h (List.mem_cons_of_mem c hm))]

lemma splitComma_append (t rest : Str) (h : ',' ∉ t) :
    splitComma (t ++ ',' :: rest) = t :: splitComma rest := by
  induction t with
  | nil => rfl
  | cons c t' ih =>
    have hc : c ≠ ',' := fun he => h (he ▸ List.mem_cons_self c t')
    rw [List.cons_append, splitComma, if_neg hc,
      ih (fun hm => h (List.mem_cons_of_mem c hm))]

lemma splitComma_joinComma (L : List Str) (hne : L ≠ [])
    (h : ∀ t ∈ L, ',' ∉ t) : splitComma (joinComma L) = L := by
  induction L with
  | nil => exact absurd rfl hne
  | cons t rest ih =>
    cases rest with
    | nil =>
      unfold joinComma
      exact splitComma_single t (h t (List.mem_cons_self t []))
    | cons u rest' =>
      have hj : joinComma (t :: u :: rest') = t ++ ',' :: joinComma (u :: rest') := rfl
      rw [hj, splitComma_append t _ (h t (List.mem_cons_self t _)),
        ih (by simp) (fun x hx => h x (List.mem_cons_of_mem t hx))]

/-!
## Claim C6
-/

/-- Claim C6 (corrected): keyword normalization is idempotent PROVIDED no
normalized token contains a comma: if `format_keywords` succeeds with the
comma-joined string `s` and every normalized token is comma-free, then
applying it again to `s` split on commas succeeds and returns `s` itself.
Without the comma-free proviso idempotence fails, because re-splitting a
token that contains a comma changes the token list. -/
theorem C6_thm :
    ∀ (tokens : List Str) (s : Str),
      format_keywords tokens = .ok s →
      (∀ t ∈ normalizeTokens tokens, ',' ∉ t) →
      format_keywords (splitComma s) = .ok s := by
  intro tokens s hok hcomma
  simp only [format_keywords, validateTokenCount, KEYWORD_MIN, KEYWORD_MAX] at hok
  by_cases hc : 1 ≤ (normalizeTokens tokens).length ∧
      (normalizeTokens tokens).length ≤ 7
  · rw [if_pos hc] at hok
    dsimp only at hok
    have hs : joinComma (normalizeTokens tokens) = s := by
      injection hok
    have hN := normalizeTokens_spec tokens
    have hNne : normalizeTokens tokens ≠ [] := by
      intro h0
      rw [h0] at hc
      simp at hc
    have hsplit : splitComma s = normalizeTokens tokens := by
      rw [← hs]
      exact splitComma_joinComma _ hNne hcomma
    simp only [format_keywords, validateTokenCount, KEYWORD_MIN, KEYWORD_MAX]
    rw [hsplit, normalizeTokens_fixed _ hN.2 hN.1, if_pos hc]
    dsimp only
    rw [hs]
  · rw [if_neg hc] at hok
    exact absurd hok (by simp)

/-- Concrete instantiation of `C6_thm`: normalizing `["a", "b"]` yields
`"a,b"`, and re-normalizing its comma-split yields `"a,b"` again. -/
theorem C6_witness :
    format_keywords (splitComma (("a,b").data)) = .ok (("a,b").data) :=
  C6_thm [("a").data, ("b").data] (("a,b").data) (by decide) (by decide)

/-- Claim C6 as stated is false: the single token `"a,a"` normalizes to the
string `"a,a"`, but re-normalizing that string split on commas de-duplicates
the two fragments and yields `"a"`, not `"a,a"`. -/
theorem C6_counterexample :
    format_keywords [("a,a").data] = .ok (("a,a").data) ∧
    format_keywords (splitComma (("a,a").data)) = .ok (("a").data) ∧
    ("a,a").data ≠ ("a").data := by
  refine ⟨by decide, by decide, by decide⟩

/-!
## Order theory of Python string comparison
-/

lemma strLt_irrefl (s : Str) : strLt s s = false := by
  induction s with
  | nil => rfl
  | cons c t ih =>
    unfold strLt
    rw [if_neg (by omega), if_neg (by omega)]
    exact ih

lemma strLt_trans {a b c : Str} (h1 : strLt a b = true) (h2 : strLt b c = true) :
    strLt a c = true := by
  induction a generalizing b c with
  | nil =>
    cases b with
    | nil => simp [strLt] at h1
    | cons y bs =>
      cases c with
      | nil => simp [strLt] at h2
      | cons z cs => rfl
  | cons x as ih =>
    cases b with
    | nil => simp [strLt] at h1
    | cons y bs =>
      cases c with
      | nil => simp [strLt] at h2
      | cons z cs =>
        unfold strLt at h1 h2 ⊢
        by_cases hxy : x.toNat < y.toNat
        · by_cases hyz : y.toNat < z.toNat
          · rw [if_pos (by omega)]
          · rw [if_neg (by omega)] at h2
            by_cases hzy : z.toNat < y.toNat
            · rw [if_pos hzy] at h2
              exact absurd h2 (by simp)
            · rw [if_pos (by omega)]
        · rw [if_neg hxy] at h1
          by_cases hyx : y.toNat < x.toNat
          · rw [if_pos hyx] at h1
            exact absurd h1 (by simp)
          · rw [if_neg hyx] at h1
            by_cases hyz : y.toNat < z.toNat
            · rw [if_pos (by omega)]
            · rw [if_neg hyz] at h2
              by_cases hzy : z.toNat < y.toNat
              · rw [if_pos hzy] at h2
                exact absurd h2 (by simp)
              · rw [if_neg hzy] at h2
                rw [if_neg (by omega), if_neg (by omega)]
                exact ih h1 h2

lemma strLt_cons_same (c : Char) (a b : Str) :
    strLt (c :: a) (c :: b) = strLt a b := by
  rw [show strLt (c :: a) (c :: b) =
      if c.toNat < c.toNat then true
      else if c.toNat < c.toNat then false else strLt a b from rfl,
    if_neg (by omega), if_neg (by omega)]

lemma strLt_append (a : Str) :
    ∀ (b c d : Str), a.length = b.length →
      strLt (a ++ c) (b ++ d) = if a = b then strLt c d else strLt a b := by
  induction a with
  | nil =>
    intro b c d h
    cases b with
    | nil => simp
    | cons y bs => simp at h
  | cons x as ih =>
    intro b c d h
    cases b with
    | nil => simp at h
    | cons y bs =>
      simp only [List.cons_append]
      by_cases h1 : x.toNat < y.toNat
      · have hne : (x :: as : Str) ≠ y :: bs := by
          intro he
          injection he with he1 _
          subst he1
          omega
        rw [if_neg hne]
        unfold strLt
        rw [if_pos h1, if_pos h1]
      · by_cases h2 : y.toNat < x.toNat
        · have hne : (x :: as : Str) ≠ y :: bs := by
            intro he
            injection he with he1 _
            subst he1
            omega
          rw [if_neg hne]
          unfold strLt
          rw [if_neg h1, if_pos h2, if_neg h1, if_pos h2]
        · have hxy : x = y := char_toNat_inj (by omega)
          subst hxy
          have hlen : as.length = bs.length := by simpa using h
          rw [strLt_cons_same, ih bs c d hlen]
          by_cases he : as = bs
          · rw [if_pos he, if_pos (by rw [he])]
          · rw [if_neg he,
              if_neg (fun hc => by injection hc with _ hc2; exact he hc2),
              strLt_cons_same]

/-!
## Lexicographic monotonicity of the canonical timestamp format
-/

set_option maxRecDepth 10000 in
set_option maxHeartbeats 2000000 in
lemma pad2_facts :
    ∀ m < 100, ∀ n < 100,
      (strLt (pad2 m) (pad2 n) = decide (m < n)) ∧ (pad2 m = pad2 n ↔ m = n) := by
  decide

lemma pad2_mod (n : Nat) : pad2 n = pad2 (n % 100) := by
  have h1 : n / 10 % 10 = n % 100 / 10 % 10 := by omega
  have h2 : n % 10 = n % 100 % 10 := by omega
  simp [pad2, digit, h1, h2]

lemma strLt_pad2_of_le {m n : Nat} (hm : m ≤ 99) (hn : n ≤ 99) :
    strLt (pad2 m) (pad2 n) = decide (m < n) :=
  (pad2_facts m (by omega) n (by omega)).1

lemma pad2_inj_of_le {m n : Nat} (hm : m ≤ 99) (hn : n ≤ 99) :
    pad2 m = pad2 n ↔ m = n :=
  (pad2_facts m (by omega) n (by omega)).2

lemma strLt_pad4_of_le {m n : Nat} (hm : m ≤ 9999) (hn : n ≤ 9999) :
    strLt (pad4 m) (pad4 n) = decide (m < n) := by
  unfold pad4
  rw [strLt_append _ _ _ _ (by rfl)]
  by_cases h : pad2 (m / 100) = pad2 (n / 100)
  · have hdiv : m / 100 = n / 100 :=
      (pad2_inj_of_le (by omega) (by omega)).mp h
    rw [if_pos h, pad2_mod m, pad2_mod n,
      strLt_pad2_of_le (by omega) (by omega)]
    simp only [decide_eq_decide]
    omega
  · have hdiv : m / 100 ≠ n / 100 := fun he => h (by rw [he])
    rw [if_neg h, strLt_pad2_of_le (show m / 100 ≤ 99 by omega) (by omega)]
    simp only [decide_eq_decide]
    omega

lemma pad4_inj_of_le {m n : Nat} (hm : m ≤ 9999) (hn : n ≤ 9999) :
    pad4 m = pad4 n ↔ m = n := by
  constructor
  · intro h
    unfold pad4 at h
    have hsplit := List.append_inj h rfl
    have h1 : m / 100 = n / 100 :=
      (pad2_inj_of_le (show m / 100 ≤ 99 by omega) (by omega)).mp hsplit.1
    have h2 : m % 100 = n % 100 := by
      have := hsplit.2
      rw [pad2_mod m, pad2_mod n] at this
      exact (pad2_inj_of_le (by omega) (by omega)).mp this
    omega
  · rintro rfl; rfl

lemma strLt_seg {m n : Nat} (hm : m ≤ 99) (hn : n ≤ 99) (c : Char)
    (r1 r2 : Str) (P : Prop) [Decidable P] (hr : strLt r1 r2 = decide P) :
    strLt (pad2 m ++ c :: r1) (pad2 n ++ c :: r2) =
      decide (m < n ∨ (m = n ∧ P)) := by
  rw [strLt_append _ _ _ _ (by rfl)]
  by_cases h : pad2 m = pad2 n
  · have hmn : m = n := (pad2_inj_of_le hm hn).mp h
    subst hmn
    rw [if_pos rfl, strLt_cons_same, hr]
    simp only [decide_eq_decide]
    constructor
    · intro hp; exact Or.inr ⟨by trivial, hp⟩
    · rintro (hlt | ⟨-, hp⟩)
      · omega
      · exact hp
  · have hmn : m ≠ n := fun he => h (by rw [he])
    rw [if_neg h, strLt_pad2_of_le hm hn]
    simp only [decide_eq_decide]
    constructor
    · intro hlt; exact Or.inl hlt
    · rintro (hlt | ⟨he, -⟩)
      · exact hlt
      · exact absurd he hmn

lemma strLt_year_seg {m n : Nat} (hm : m ≤ 9999) (hn : n ≤ 9999) (c : Char)
    (r1 r2 : Str) (P : Prop) [Decidable P] (hr : strLt r1 r2 = decide P) :
    strLt (pad4 m ++ c :: r1) (pad4 n ++ c :: r2) =
      decide (m < n ∨ (m = n ∧ P)) := by
  rw [strLt_append _ _ _ _ (by rfl)]
  by_cases h : pad4 m = pad4 n
  · have hmn : m = n := (pad4_inj_of_le hm hn).mp h
    subst hmn
    rw [if_pos rfl, strLt_cons_same, hr]
    simp only [decide_eq_decide]
    constructor
    · intro hp; exact Or.inr ⟨by trivial, hp⟩
    · rintro (hlt | ⟨-, hp⟩)
      · omega
      · exact hp
  · have hmn : m ≠ n := fun he => h (by rw [he])
    rw [if_neg h, strLt_pad4_of_le hm hn]
    simp only [decide_eq_decide]
    constructor
    · intro hlt; exact Or.inl hlt
    · rintro (hlt | ⟨he, -⟩)
      · exact hlt
      · exact absurd he hmn

lemma strLt_last_seg {m n : Nat} (hm : m ≤ 99) (hn : n ≤ 99) :
    strLt (pad2 m ++ ['Z']) (pad2 n ++ ['Z']) = decide (m < n) := by
  rw [strLt_append _ _ _ _ (by rfl)]
  by_cases h : pad2 m = pad2 n
  · have hmn : m = n := (pad2_inj_of_le hm hn).mp h
    subst hmn
    rw [if_pos rfl]
    simp [strLt_irrefl]
  · rw [if_neg h, strLt_pad2_of_le hm hn]

/-- The canonical second-precision `Z`-suffixed format is lexicographically
monotonic: comparing two rendered timestamps as strings decides exactly the
chronological order of the underlying (valid) datetimes. -/
lemma strLt_to_isoformat (d1 d2 : DT) (h1 : validDT d1) (h2 : validDT d2) :
    strLt (to_isoformat d1 false) (to_isoformat d2 false) =
      decide (dtLt d1 d2) := by
  obtain ⟨hy1a, hy1b, hmo1a, hmo1b, hd1a, hd1b, hh1, hmi1, hs1, -⟩ := h1
  obtain ⟨hy2a, hy2b, hmo2a, hmo2b, hd2a, hd2b, hh2, hmi2, hs2, -⟩ := h2
  rw [to_isoformat_eq_core, to_isoformat_eq_core]
  unfold isoCore
  simp only [List.append_assoc, List.cons_append]
  rw [strLt_year_seg (by omega) (by omega) '-' _ _ _
    (strLt_seg (by omega) (by omega) '-' _ _ _
      (strLt_seg (by omega) (by omega) 'T' _ _ _
        (strLt_seg (by omega) (by omega) ':' _ _ _
          (strLt_seg (by omega) (by omega) ':' _ _ _
            (strLt_last_seg (by omega) (by omega))))))]
  simp only [decide_eq_decide]
  unfold dtLt
  exact Iff.rfl

/-!
## Invariant of the latest-session scan
-/

/-- The invariant the scan loop of `get_latest_session_for_child` maintains
over the rows already processed (`P`): either nothing has been kept and no
processed row matches the child with a nonempty `created_at`, or the kept
row is a processed matching row whose timestamp is maximal among processed
matching rows with nonempty timestamps. -/
def scanInv (child_id : Str) (P : List Record) :
    Option Record → Option Str → Prop
  | none, none =>
    ∀ r ∈ P, r hChildId = some (.vStr child_id) →
      ∀ s : Str, r hCreatedAt = some (.vStr s) → s = []
  | some r0, some s0 =>
    r0 ∈ P ∧ r0 hChildId = some (.vStr child_id) ∧
    r0 hCreatedAt = some (.vStr s0) ∧ s0 ≠ [] ∧
    ∀ r ∈ P, r hChildId = some (.vStr child_id) →
      ∀ s : Str, r hCreatedAt = some (.vStr s) → s ≠ [] → strLt s0 s = false
  | _, _ => False

lemma scanInv_extend_skip {child_id : Str} {P : List Record} {best : Option Record}
    {bestS : Option Str} (row : Record) (h : scanInv child_id P best bestS)
    (hrow : row hChildId ≠ some (.vStr child_id) ∨
      ∀ s : Str, row hCreatedAt = some (.vStr s) → s = []) :
    scanInv child_id (P ++ [row]) best bestS := by
  cases best with
  | none =>
    cases bestS with
    | none =>
      intro r hr hm s hs
      rcases List.mem_append.mp hr with hP | hrw
      · exact h r hP hm s hs
      · rw [List.mem_singleton.mp hrw] at hm hs
        rcases hrow with hne | hts
        · exact absurd hm hne
        · exact hts s hs
    | some _ => exact h.elim
  | some r0 =>
    cases bestS with
    | none => exact h.elim
    | some s0 =>
      obtain ⟨hmem, hm0, hc0, hne0, hmax⟩ := h
      refine ⟨List.mem_append_left _ hmem, hm0, hc0, hne0, ?_⟩
      intro r hr hm s hs hsne
      rcases List.mem_append.mp hr with hP | hrw
      · exact hmax r hP hm s hs hsne
      · rw [List.mem_singleton.mp hrw] at hm hs
        rcases hrow with hne | hts
        · exact absurd hm hne
        · exact absurd (hts s hs) hsne

lemma latestScan_inv (child_id : Str) (rows : List Record) :
    ∀ (best : Option Record) (bestS : Option Str) (P : List Record),
      scanInv child_id P best bestS →
      ∃ bestS', scanInv child_id (P ++ rows)
        (latestScan child_id rows best bestS) bestS' := by
  induction rows with
  | nil =>
    intro best bestS P h
    exact ⟨bestS, by simpa using h⟩
  | cons row rest ih =>
    intro best bestS P h
    have hPr : (P ++ [row]) ++ rest = P ++ row :: rest := by simp
    rw [latestScan]
    by_cases hne : row hChildId ≠ some (.vStr child_id)
    · rw [if_pos hne]
      have := ih best bestS (P ++ [row]) (scanInv_extend_skip row h (Or.inl hne))
      rwa [hPr] at this
    · rw [if_neg hne]
      push_neg at hne
      cases hcr : row hCreatedAt with
      | none =>
        have := ih best bestS (P ++ [row]) (scanInv_extend_skip row h
          (Or.inr (fun s hs => by rw [hcr] at hs; exact absurd hs (by simp))))
        rwa [hPr] at this
      | some v =>
        cases v with
        | vStr s =>
          dsimp only
          by_cases hsnil : s = []
          · rw [if_pos hsnil]
            have := ih best bestS (P ++ [row]) (scanInv_extend_skip row h
              (Or.inr (fun s' hs' => by
                rw [hcr] at hs'
                injection hs' with hv
                injection hv with hv2
                rw [← hv2, hsnil])))
            rwa [hPr] at this
          · rw [if_neg hsnil]
            cases bestS with
            | none =>
              cases best with
              | some r0 => exact h.elim
              | none =>
                have hinv : scanInv child_id (P ++ [row]) (some row) (some s) := by
                  refine ⟨List.mem_append_right _ (List.mem_singleton_self row),
                    hne, hcr, hsnil, ?_⟩
                  intro r hr hm s' hs' hs'ne
                  rcases List.mem_append.mp hr with hP | hrw
                  · exact absurd (h r hP hm s' hs') hs'ne
                  · rw [List.mem_singleton.mp hrw] at hs'
                    rw [hcr] at hs'
                    injection hs' with hv
                    injection hv with hv2
                    rw [hv2]
                    exact strLt_irrefl _
                have := ih (some row) (some s) (P ++ [row]) hinv
                rwa [hPr] at this
            | some prev =>
              cases best with
              | none => exact h.elim
              | some r0 =>
                obtain ⟨hmem, hm0, hc0, hne0, hmax⟩ := h
                dsimp only
                by_cases hlt : strLt prev s = true
                · rw [if_pos hlt]
                  have hinv : scanInv child_id (P ++ [row]) (some row) (some s) := by
                    refine ⟨List.mem_append_right _ (List.mem_singleton_self row),
                      hne, hcr, hsnil, ?_⟩
                    intro r hr hm s' hs' hs'ne
                    rcases List.mem_append.mp hr with hP | hrw
                    · cases hss : strLt s s' with
                      | false => rfl
                      | true =>
                        have htr := strLt_trans hlt hss
                        rw [hmax r hP hm s' hs' hs'ne] at htr
                        exact absurd htr (by simp)
                    · rw [List.mem_singleton.mp hrw] at hs'
                      rw [hcr] at hs'
                      injection hs' with hv
                      injection hv with hv2
                      rw [hv2]
                      exact strLt_irrefl _
                  have := ih (some row) (some s) (P ++ [row]) hinv
                  rwa [hPr] at this
                · rw [if_neg hlt]
                  have hinv : scanInv child_id (P ++ [row]) (some r0) (some prev) := by
                    refine ⟨List.mem_append_left _ hmem, hm0, hc0, hne0, ?_⟩
                    intro r hr hm s' hs' hs'ne
                    rcases List.mem_append.mp hr with hP | hrw
                    · exact hmax r hP hm s' hs' hs'ne
                    · rw [List.mem_singleton.mp hrw] at hs'
                      rw [hcr] at hs'
                      injection hs' with hv
                      injection hv with hv2
                      rw [← hv2]
                      simpa using hlt
                  have := ih (some r0) (some prev) (P ++ [row]) hinv
                  rwa [hPr] at this
        | vNone =>
          have := ih best bestS (P ++ [row]) (scanInv_extend_skip row h
            (Or.inr (fun s hs => by rw [hcr] at hs; simp at hs)))
          rwa [hPr] at this
        | vInt n =>
          have := ih best bestS (P ++ [row]) (scanInv_extend_skip row h
            (Or.inr (fun s hs => by rw [hcr] at hs; simp at hs)))
          rwa [hPr] at this
        | vDT d =>
          have := ih best bestS (P ++ [row]) (scanInv_extend_skip row h
            (Or.inr (fun s hs => by rw [hcr] at hs; simp at hs)))
          rwa [hPr] at this

/-!
## Claim C5
-/

/-- Claim C5 (corrected): `get_latest_session_for_child` returns absent iff
no row matching the child id has a NONEMPTY `created_at` string (matching
rows with empty timestamps are skipped, so a worksheet whose only matching
rows have empty `created_at` yields absent, not a matching row); when it
returns a row, that row matches the child id, has a nonempty `created_at`,
and its `created_at` is lexicographically maximal among matching rows with
nonempty timestamps; and for valid datetimes, lexicographic comparison of
the canonical second-precision UTC `Z` strings coincides exactly with
chronological order. -/
theorem C5_thm :
    (∀ (sessions_ws : Ws) (cid : Str),
      getLatestSessionForChild sessions_ws cid = none ↔
        ∀ r ∈ getAllRecords sessions_ws, r hChildId = some (.vStr cid) →
          ∀ s : Str, r hCreatedAt = some (.vStr s) → s = []) ∧
    (∀ (sessions_ws : Ws) (cid : Str) (r0 : Record),
      getLatestSessionForChild sessions_ws cid = some r0 →
      r0 ∈ getAllRecords sessions_ws ∧ r0 hChildId = some (.vStr cid) ∧
      ∃ s0 : Str, r0 hCreatedAt = some (.vStr s0) ∧ s0 ≠ [] ∧
        ∀ r ∈ getAllRecords sessions_ws, r hChildId = some (.vStr cid) →
          ∀ s : Str, r hCreatedAt = some (.vStr s) → s ≠ [] →
            strLt s0 s = false) ∧
    (∀ d1 d2 : DT, validDT d1 → validDT d2 →
      (strLt (to_isoformat d1 false) (to_isoformat d2 false) = true ↔
        dtLt d1 d2)) := by
  have hbase : ∀ (ws : Ws) (cid : Str),
      ∃ bestS', scanInv cid (getAllRecords ws)
        (latestScan cid (getAllRecords ws) none none) bestS' := by
    intro ws cid
    have h0 : scanInv cid [] (none : Option Record) (none : Option Str) := by
      intro r hr
      exact absurd hr (List.not_mem_nil r)
    have := latestScan_inv cid (getAllRecords ws) none none [] h0
    simpa using this
  refine ⟨?_, ?_, ?_⟩
  · intro ws cid
    obtain ⟨bestS', hs⟩ := hbase ws cid
    constructor
    · intro h0
      unfold getLatestSessionForChild at h0
      rw [h0] at hs
      cases bestS' with
      | none => exact hs
      | some s0 => exact hs.elim
    · intro hall
      cases hres : latestScan cid (getAllRecords ws) none none with
      | none => exact hres
      | some r0 =>
        exfalso
        rw [hres] at hs
        cases bestS' with
        | none => exact hs.elim
        | some s0 =>
          obtain ⟨hmem, hm, hc, hne, -⟩ := hs
          exact hne (hall r0 hmem hm s0 hc)
  · intro ws cid r0 h0
    obtain ⟨bestS', hs⟩ := hbase ws cid
    unfold getLatestSessionForChild at h0
    rw [h0] at hs
    cases bestS' with
    | none => exact hs.elim
    | some s0 =>
      obtain ⟨hmem, hm, hc, hne, hmax⟩ := hs
      exact ⟨hmem, hm, s0, hc, hne, hmax⟩
  · intro d1 d2 h1 h2
    rw [strLt_to_isoformat d1 d2 h1 h2]
    exact decide_eq_true_iff

def demoDT2 : DT := ⟨2024, 1, 2, 0, 0, 0, 0, true⟩

/-- Concrete instantiation of `C5_thm`. -/
theorem C5_witness :
    getLatestSessionForChild [SESSIONS_HEADERS] (("c9").data) = none ∧
    strLt (to_isoformat demoDT false) (to_isoformat demoDT2 false) = true :=
  ⟨(C5_thm.1 [SESSIONS_HEADERS] (("c9").data)).mpr
    (by intro r hr; simp [getAllRecords] at hr),
   (C5_thm.2.2 demoDT demoDT2 (by decide) (by decide)).mpr (by decide)⟩

def demoSessEmptyTS : Ws :=
  [SESSIONS_HEADERS,
   [("s9").data, ("c9").data, ("calm").data, ("env").data, ("sit").data,
    ("p").data, []]]

/-- Claim C5 as stated is false: on a sheet holding one session row for
child `c9` whose `created_at` cell is empty, a row matches the child id yet
the function returns absent instead of a matching row. -/
theorem C5_counterexample :
    getLatestSessionForChild demoSessEmptyTS (("c9").data) = none ∧
    ((getAllRecords demoSessEmptyTS).any
      fun r => r hChildId = some (.vStr (("c9").data))) = true := by
  constructor
  · rfl
  · decide
